import Mathlib

/-!
Verification development for the `diyanet` prayer-time scraper
(`src/diyanet.py`).  The Python source is shallowly embedded below:

* the two streaming `html.parser.HTMLParser` subclasses (`OptionParser`,
  `PrayerTimeParser`) become explicit state machines over a stream of
  already-tokenized markup events (`Event`); the stdlib tokenizer itself is
  abstracted as a parameter `tok : String → List Event` where needed;
* the `shelve`-backed persistent cache becomes an explicit `Shelf` value,
  with the crucial stdlib semantics that reading `db[section]` yields a
  fresh copy of the stored value (shelve with `writeback=False`), so that
  mutations of the in-memory copy are never written back to the store;
* the network is a total oracle `net : String → String` from URL to decoded
  body; a ghost counter `requests` counts the `urlopen` calls;
* Python exceptions become `Except Failure`; constructor names follow the
  specification's error taxonomy, with comments mapping each constructor to
  the concrete Python exception raised by the source.
-/

deriving instance DecidableEq for Except

namespace Diyanet

/-- Models Python's `str.casefold()`.  Per-character simple lowercasing; the
full-casefold special cases (e.g. `ß`) do not occur in the inputs handled by
this program. -/
def casefold (s : String) : String := ⟨s.data.map Char.toLower⟩

/-- Whitespace-trim a character list at both ends. -/
def trimChars (l : List Char) : List Char :=
  ((l.dropWhile Char.isWhitespace).reverse.dropWhile Char.isWhitespace).reverse

/-- Models Python's `str.strip()` (trim surrounding whitespace; the exotic
Unicode space characters do not occur in these documents). -/
def pyStrip (s : String) : String := ⟨trimChars s.data⟩

/-- Models `dict(pairs)[k]` lookup: the *last* binding of a key wins, as in a
Python dict built from a pair list. -/
def dictGet {α : Type} : List (String × α) → String → Option α
  | [], _ => none
  | (k', v) :: rest, k =>
    match dictGet rest k with
    | some w => some w
    | none => if k' == k then some v else none

/-- Models `d[k] = v` on a Python dict: update in place if the key is
present, else append, preserving insertion order. -/
def dictSet {α : Type} : List (String × α) → String → α → List (String × α)
  | [], k, v => [(k, v)]
  | (k', v') :: rest, k, v =>
    if k' == k then (k', v) :: rest else (k', v') :: dictSet rest k v

/-- Does `small` occur as a prefix of `big`? (helper for the substring test) -/
def listStartsWith : List Char → List Char → Bool
  | _, [] => true
  | [], _ :: _ => false
  | a :: as, b :: bs => a == b && listStartsWith as bs

/-- Does `needle` occur as a contiguous sublist of `hay`? -/
def listHasSub (needle : List Char) : List Char → Bool
  | [] => needle.isEmpty
  | a :: hs => listStartsWith (a :: hs) needle || listHasSub needle hs

/-- Models Python's substring containment test `needle in hay` on strings. -/
def pyIn (needle hay : String) : Bool := listHasSub needle.toList hay.toList

/-- Are all characters decimal digits (and at least one present)? -/
def isDigits (l : List Char) : Bool := !l.isEmpty && l.all Char.isDigit

/-- Numeric value of a list of decimal digit characters. -/
def digitsVal (l : List Char) : Nat := l.foldl (fun a c => 10 * a + (c.toNat - 48)) 0

/-- The ASCII characters `int()` strips as surrounding whitespace: tab,
newline, vertical tab, form feed, carriage return and space (checked
against CPython; Python also strips some non-ASCII Unicode whitespace,
outside this model's ASCII scope). -/
def isPySpace (c : Char) : Bool :=
  c == ' ' || c == '\t' || c == '\n' || c == '\x0b' || c == '\x0c' || c == '\r'

/-- Strip leading and trailing `int()`-whitespace from a character list. -/
def stripPyWs (l : List Char) : List Char :=
  ((l.dropWhile isPySpace).reverse.dropWhile isPySpace).reverse

/-- The tail of `int()`'s digit part after its first digit: further digits,
with single underscores allowed only between digits, accumulating the
value. -/
def pyDigitsUnd : List Char → Nat → Option Nat
  | [], acc => some acc
  | c :: rest, acc =>
    if c.isDigit then pyDigitsUnd rest (10 * acc + (c.toNat - 48))
    else if c == '_' then
      match rest with
      | c2 :: rest2 =>
        if c2.isDigit then pyDigitsUnd rest2 (10 * acc + (c2.toNat - 48)) else none
      | [] => none
    else none

/-- `int()`'s digit part `digit (["_"] digit)*`: at least one digit, then
digits with single underscores strictly between digits. -/
def pyIntCore : List Char → Option Nat
  | [] => none
  | c :: rest => if c.isDigit then pyDigitsUnd rest (c.toNat - 48) else none

/-- Models Python's `int(s)` on strings: optional surrounding whitespace,
an optional sign directly adjacent to the digits, and decimal digits with
single underscores allowed between digits (`int(" 5")` is `5`,
`int("1_0")` is `10`, `int("+ 5")` raises).  Exact for ASCII strings; the
non-ASCII decimal digits and whitespace characters Python additionally
accepts never occur in these documents and are rejected here, which is why
the raising-direction statement about the extractor carries an explicit
ASCII hypothesis. -/
def pyInt (s : String) : Option Int :=
  match stripPyWs s.data with
  | [] => none
  | c :: rest =>
    if c == '-' then (pyIntCore rest).map (fun n => -(n : Int))
    else if c == '+' then (pyIntCore rest).map (fun n => (n : Int))
    else (pyIntCore (c :: rest)).map (fun n => (n : Int))

/-- Decimal digit character for `d < 10`. -/
def digitChar (d : Nat) : Char := Char.ofNat (48 + d)

/-- Decimal digit string of a natural number (most significant first),
fuel-based so that it reduces inside the kernel. -/
def natToDigitsAux : Nat → Nat → List Char
  | 0, _ => []
  | fuel + 1, n =>
    if n < 10 then [digitChar n]
    else natToDigitsAux fuel (n / 10) ++ [digitChar (n % 10)]

/-- Decimal digit string of a natural number (most significant first). -/
def natToDigits (n : Nat) : List Char := natToDigitsAux (n + 1) n

/-- Decimal rendering of an integer, as it appears in a `value="…"`
attribute of the scraped documents. -/
def intValueStr : Int → String
  | .ofNat n => ⟨natToDigits n⟩
  | .negSucc n => ⟨'-' :: natToDigits (n + 1)⟩

/-- One markup event as dispatched by `html.parser.HTMLParser`: a start tag
with its attribute list, a text (`handle_data`) chunk, or an end tag.  Tag
names arrive already lowercased by the stdlib tokenizer. -/
inductive Event : Type
  | startTag (tag : String) (attrs : List (String × String))
  | text (d : String)
  | endTag (tag : String)
deriving DecidableEq

/-- The error taxonomy of the specification.  Comments map each constructor
to the Python exception the source actually raises. -/
inductive Failure : Type
  /-- `ValueError("Unknown/unsupported {level}: '{name}'")` from the
  resolver's linear searches; carries the hierarchy level word baked into
  the message and the searched name. -/
  | notFound (level : String) (name : String)
  /-- `KeyError(label)` from `times[label]` in `get_times` when a required
  label is absent from the extracted pairs. -/
  | parseError (label : String)
  /-- `ValueError` from `time.fromisoformat(raw)` when a found raw value is
  not a valid time-of-day string. -/
  | timeFormatError (raw : String)
  /-- `TypeError` from `time.fromisoformat(None)` when the extracted record
  for a label was never given a value. -/
  | typeError (label : String)
  /-- `KeyError("value")` from `attributes["value"]` on an `<option>` start
  tag lacking a `value` attribute while recording. -/
  | keyError (k : String)
  /-- `ValueError` from `int(v)` on a non-integer `value` attribute. -/
  | valueError (raw : String)
  /-- `IndexError` from a `[-1]` access on an empty list. -/
  | indexError
deriving DecidableEq

/-! ## OptionParser (src/diyanet.py lines 77-106) -/

/-- State of `OptionParser`: the collected `[label?, idx]` records, the
configured identifier fragment, the recording flag, and `HTMLParser`'s
`lasttag` attribute (set by the tokenizer to each start tag's name just
before `handle_starttag` runs). -/
structure OptionParser : Type where
  options : List (Option String × Int)
  identifier : String
  record_options : Bool
  lasttag : String
deriving DecidableEq

/-- `OptionParser(identifier=…)`: fresh parser state.  `lasttag` starts as
`HTMLParser`'s initial `"???"`. -/
def OptionParser.init (identifier : String) : OptionParser :=
  { options := [], identifier := identifier, record_options := false, lasttag := "???" }

/-- `OptionParser.handle_starttag` (lines 84-93).  `lasttag` has already
been set by the tokenizer.  A `select` whose `class` attribute contains the
identifier substring starts recording; while recording, each `option` start
tag appends a record `[None, int(attributes["value"])]` — raising `KeyError`
if the attribute is missing and `ValueError` if it is not an integer
string. -/
def OptionParser.handle_starttag (p : OptionParser) (tag : String)
    (attrs : List (String × String)) : Except Failure OptionParser :=
  if tag == "select" &&
      (match dictGet attrs "class" with
       | some c => pyIn p.identifier c
       | none => false) then
    .ok { p with record_options := true }
  else if p.record_options && tag == "option" then
    match dictGet attrs "value" with
    | none => .error (.keyError "value")
    | some v =>
      match pyInt v with
      | none => .error (.valueError v)
      | some n => .ok { p with options := p.options ++ [(none, n)] }
  else .ok p

/-- Is the last collected record's label still `None`? -/
def lastLabelNone (opts : List (Option String × Int)) : Bool :=
  match opts.getLast? with
  | some (none, _) => true
  | _ => false

/-- `OptionParser.handle_data` (lines 95-101): while recording, with
`lasttag == "option"`, fill the last record's label (case-folded) when it is
still `None`.  The `self.options[-1]` access raises `IndexError` when the
list is empty (this is unreachable from the initial state, proved below). -/
def OptionParser.handle_data (p : OptionParser) (d : String) :
    Except Failure OptionParser :=
  if p.record_options && p.lasttag == "option" then
    match p.options.getLast? with
    | none => .error .indexError
    | some (lbl, idx) =>
      if lbl == none then
        .ok { p with options := p.options.dropLast ++ [(some (casefold d), idx)] }
      else .ok p
  else .ok p

/-- Stable insertion of a record into a list sorted ascending by `idx`: the
inserted record moves past exactly the records with strictly smaller `idx`,
so records with equal `idx` keep their document order.  Together with
`sortByIdx` this models `self.options.sort(key=lambda t: t[1])`: CPython's
sort is a stable ascending sort, a stable sort's result is uniquely
determined by its input, and stable insertion sort is therefore an exact
model. -/
def insertByIdx (x : Option String × Int) :
    List (Option String × Int) → List (Option String × Int)
  | [] => [x]
  | y :: ys => if y.2 < x.2 then y :: insertByIdx x ys else x :: y :: ys

/-- Stable sort of the option records ascending by `idx`. -/
def sortByIdx : List (Option String × Int) → List (Option String × Int)
  | [] => []
  | x :: xs => insertByIdx x (sortByIdx xs)

/-- `OptionParser.handle_endtag` (lines 103-106): a closing `select` while
recording stops recording and sorts the records ascending by `idx`. -/
def OptionParser.handle_endtag (p : OptionParser) (tag : String) : OptionParser :=
  if tag == "select" && p.record_options then
    { p with record_options := false, options := sortByIdx p.options }
  else p

/-- Dispatch one tokenizer event to `OptionParser`'s handlers.  On a start
tag the tokenizer first sets `lasttag`. -/
def OptionParser.step (p : OptionParser) : Event → Except Failure OptionParser
  | .startTag t a => OptionParser.handle_starttag { p with lasttag := t } t a
  | .text d => OptionParser.handle_data p d
  | .endTag t => .ok (OptionParser.handle_endtag p t)

/-- `parser.feed(page)` on an already-tokenized event stream. -/
def OptionParser.run (p : OptionParser) : List Event → Except Failure OptionParser
  | [] => .ok p
  | e :: rest =>
    match OptionParser.step p e with
    | .error err => .error err
    | .ok p' => OptionParser.run p' rest

/-! ## PrayerTimeParser (src/diyanet.py lines 112-143) -/

/-- `RecordStates = IntEnum("RecordStates", "NAME VALUE")` (line 20). -/
inductive RecordStates : Type
  | name
  | value
deriving DecidableEq

/-- State of `PrayerTimeParser`: collected `[label, value?]` records and the
current `record_state` (`None` outside an interesting `div`). -/
structure PrayerTimeParser : Type where
  times : List (String × Option String)
  record_state : Option RecordStates
deriving DecidableEq

/-- `PrayerTimeParser()`: fresh parser state. -/
def PrayerTimeParser.init : PrayerTimeParser := { times := [], record_state := none }

/-- `PrayerTimeParser.handle_starttag` (lines 118-124): a `div` with class
exactly `tpt-title` (resp. `tpt-time`) moves to the NAME (resp. VALUE)
state; everything else leaves the state unchanged. -/
def PrayerTimeParser.handle_starttag (p : PrayerTimeParser) (tag : String)
    (attrs : List (String × String)) : PrayerTimeParser :=
  if tag == "div" then
    match dictGet attrs "class" with
    | some c =>
      if c == "tpt-title" then { p with record_state := some .name }
      else if c == "tpt-time" then { p with record_state := some .value }
      else p
    | none => p
  else p

/-- Is the last record's value filled (`self.times[-1][1] is not None`)? -/
def lastValueFilled (ts : List (String × Option String)) : Bool :=
  match ts.getLast? with
  | some (_, some _) => true
  | _ => false

/-- `PrayerTimeParser.handle_data` (lines 126-140), branch for branch:
in the NAME state with no pending unfilled record, append a fresh record
`[data.strip(), None]`; in the VALUE state with the last record unfilled,
fill it (`self.times[-1][1]` raises `IndexError` on an empty list); in every
other non-idle case, `self.times.pop()` discards the most recent record. -/
def PrayerTimeParser.handle_data (p : PrayerTimeParser) (d : String) :
    Except Failure PrayerTimeParser :=
  match p.record_state with
  | none => .ok p
  | some rs =>
    if rs == .name && (p.times.isEmpty || lastValueFilled p.times) then
      .ok { p with times := p.times ++ [(pyStrip d, none)] }
    else if rs == .value then
      match p.times.getLast? with
      | none => .error .indexError
      | some (_, some _) => .ok { p with times := p.times.dropLast }
      | some (n, none) => .ok { p with times := p.times.dropLast ++ [(n, some d)] }
    else .ok { p with times := p.times.dropLast }

/-- `PrayerTimeParser.handle_endtag` (lines 142-143): every closing tag —
whatever its name — resets `record_state` to `None`. -/
def PrayerTimeParser.handle_endtag (p : PrayerTimeParser) (_tag : String) :
    PrayerTimeParser :=
  { p with record_state := none }

/-- Dispatch one tokenizer event to `PrayerTimeParser`'s handlers. -/
def PrayerTimeParser.step (p : PrayerTimeParser) : Event → Except Failure PrayerTimeParser
  | .startTag t a => .ok (PrayerTimeParser.handle_starttag p t a)
  | .text d => PrayerTimeParser.handle_data p d
  | .endTag t => .ok (PrayerTimeParser.handle_endtag p t)

/-- `parser.feed(page)` on an already-tokenized event stream. -/
def PrayerTimeParser.run (p : PrayerTimeParser) :
    List Event → Except Failure PrayerTimeParser
  | [] => .ok p
  | e :: rest =>
    match PrayerTimeParser.step p e with
    | .error err => .error err
    | .ok p' => PrayerTimeParser.run p' rest

/-! ## Data model (src/diyanet.py lines 24-54) -/

/-- `Country(name, idx)` — a `GeographicUnit` with no extra fields. -/
structure Country : Type where
  name : String
  idx : Int
deriving DecidableEq

/-- `State(name, idx, country)` — back-reference to the parent country. -/
structure State : Type where
  name : String
  idx : Int
  country : Country
deriving DecidableEq

/-- `Region(name, idx, url, country, state)` — its own endpoint path plus
back-references to both parents (dataclass field order as in the source). -/
structure Region : Type where
  name : String
  idx : Int
  url : String
  country : Country
  state : State
deriving DecidableEq

/-- Models `datetime.time` for the wall-clock values this program produces
(seconds and microseconds are always zero for `HH:MM` inputs). -/
structure Time : Type where
  hour : Nat
  minute : Nat
deriving DecidableEq

/-- `PrayerTimes(fajr, sunrise, dhuhr, asr, maghrib, isha)`. -/
structure PrayerTimes : Type where
  fajr : Time
  sunrise : Time
  dhuhr : Time
  asr : Time
  maghrib : Time
  isha : Time
deriving DecidableEq

/-! ## CachingFetcher (src/diyanet.py lines 17, 146-186) -/

def BASE_URL : String := "https://namazvakitleri.diyanet.gov.tr"

/-- UTF-8 bytes of a character, as numbers. -/
def utf8Bytes (c : Char) : List Nat :=
  let n := c.toNat
  if n < 0x80 then [n]
  else if n < 0x800 then [0xC0 + n / 0x40, 0x80 + n % 0x40]
  else if n < 0x10000 then [0xE0 + n / 0x1000, 0x80 + n / 0x40 % 0x40, 0x80 + n % 0x40]
  else [0xF0 + n / 0x40000, 0x80 + n / 0x1000 % 0x40, 0x80 + n / 0x40 % 0x40, 0x80 + n % 0x40]

/-- Uppercase hexadecimal digit for `d < 16`. -/
def hexDigit (d : Nat) : Char := if d < 10 then digitChar d else Char.ofNat (55 + d)

/-- `%XX` percent-escape of one byte. -/
def percentByte (b : Nat) : List Char := ['%', hexDigit (b / 16), hexDigit (b % 16)]

/-- Models `urllib.parse.quote_plus`: keep unreserved characters
(alphanumerics and `_.-~`), turn spaces into `+`, percent-encode every other
character's UTF-8 bytes. -/
def quote_plus (s : String) : String :=
  ⟨s.toList.foldr (fun c acc =>
    if c.isAlphanum || c == '_' || c == '.' || c == '-' || c == '~' then c :: acc
    else if c == ' ' then '+' :: acc
    else (utf8Bytes c).foldr (fun b a => percentByte b ++ a) acc) []⟩

/-- Models `urllib.parse.urlencode(kwargs)`: `k=v` pairs joined by `&`, each
side quoted, in keyword-argument order (Python keeps call order). -/
def urlencode (kwargs : List (String × String)) : String :=
  String.intercalate "&" (kwargs.map fun p => quote_plus p.1 ++ "=" ++ quote_plus p.2)

/-- The in-memory state of one `Diyanet` instance: the three `_…_cache`
attributes set by `initalize_db` (each a plain dict — a *copy* of the
corresponding shelf section), plus a ghost counter of `urlopen` calls used
to state "exactly one network request" claims. -/
structure Mem : Type where
  page_cache : List (String × String)
  countries_cache : List (String × Country)
  regions_cache : List (String × String)
  requests : Nat
deriving DecidableEq

/-- The persistent `shelve` store: three optional sections.  `none` models a
key absent from the shelf.  Section values of the never-populated `regions`
section are modelled as string dicts (their type is immaterial). -/
structure Shelf : Type where
  page : Option (List (String × String))
  countries : Option (List (String × Country))
  regions : Option (List (String × String))
deriving DecidableEq

/-- `Diyanet.do_request` (lines 174-182): key the `page` cache on
`request.get_full_url()` (the URL string the request was built from); on hit
return the cached body; on miss perform the network GET (counted), store the
decoded body in the *in-memory* `_page_cache` dict, and return it.  The
shelf is not touched. -/
def do_request (net : String → String) (m : Mem) (address : String) : String × Mem :=
  match dictGet m.page_cache address with
  | some body => (body, m)
  | none =>
    let content := net address
    (content,
      { m with
        page_cache := dictSet m.page_cache address content,
        requests := m.requests + 1 })

/-- `Diyanet.fetch` (lines 184-186): build the canonical URL
`{base_url}{endpoint}?{urlencode(kwargs)}` (base URL of the default
instance) and delegate to `do_request`. -/
def fetch (net : String → String) (m : Mem) (endpoint : String)
    (kwargs : List (String × String)) : String × Mem :=
  do_request net m (BASE_URL ++ endpoint ++ "?" ++ urlencode kwargs)

/-- The dict comprehension of `initalize_countries` (lines 169-172):
`{country: Country(country, idx) for country, idx in options}`, with the
dict's last-write-wins overwrite on duplicate labels.  An option whose label
was never filled (no text inside the `<option>`) would produce a
`None`-keyed, `None`-named entry in Python; such malformed documents are
outside this model, which covers the documents where every recorded option's
label was filled. -/
def countriesOf (opts : List (Option String × Int)) : List (String × Country) :=
  opts.foldl
    (fun d p =>
      match p.1 with
      | some l => dictSet d l ⟨l, p.2⟩
      | none => d)
    []

/-- `Diyanet.initalize_countries` (lines 165-172): fetch the home page
through the caching fetcher, run `OptionParser(identifier="country-select")`
over it (tokenizer `tok` abstracts `HTMLParser.feed`), and build the
name-keyed country dict. -/
def initalize_countries (net : String → String) (tok : String → List Event)
    (m : Mem) : Except Failure (List (String × Country) × Mem) :=
  let r := fetch net m "/tr-TR/home" []
  match OptionParser.run (OptionParser.init "country-select") (tok r.1) with
  | .error e => .error e
  | .ok p => .ok (countriesOf p.options, r.2)

/-- `Diyanet.initalize_db` (lines 158-163): for each section in order
`page`, `countries`, `regions` — if absent from the shelf, write the
initializer's result into the shelf (`db[section] = initalizer()`, the only
writes the shelf ever receives); then set the in-memory `_{section}_cache`
attribute to `db[section]`, which under `shelve` (writeback disabled) is a
fresh copy of the stored value.  The `countries` initializer fetches through
the instance, mutating the in-memory page cache set one iteration earlier. -/
def initalize_db (net : String → String) (tok : String → List Event)
    (db : Shelf) : Except Failure (Shelf × Mem) :=
  let db1 := match db.page with
    | none => { db with page := some [] }
    | some _ => db
  let m1 : Mem :=
    { page_cache := db1.page.getD [], countries_cache := [],
      regions_cache := [], requests := 0 }
  match db1.countries with
  | some cs =>
    let m2 := { m1 with countries_cache := cs }
    let db2 := match db1.regions with
      | none => { db1 with regions := some [] }
      | some _ => db1
    .ok (db2, { m2 with regions_cache := db2.regions.getD [] })
  | none =>
    match initalize_countries net tok m1 with
    | .error e => .error e
    | .ok (cs, m2) =>
      let db2 := { db1 with countries := some cs }
      let m3 := { m2 with countries_cache := cs }
      let db3 := match db2.regions with
        | none => { db2 with regions := some [] }
        | some _ => db2
      .ok (db3, { m3 with regions_cache := db3.regions.getD [] })

/-! ## GeographicHierarchyResolver (src/diyanet.py lines 188-239) -/

/-- `Diyanet.get_countries` (lines 188-189): the values of the country
dict, in insertion order. -/
def get_countries (m : Mem) : List Country := m.countries_cache.map (·.2)

/-- `Diyanet.get_country` (lines 220-225): first case-insensitive exact
name match over the country directory; otherwise
`ValueError(f"Unknown/unsupported country: '{name}'")`. -/
def get_country (m : Mem) (name : String) : Except Failure Country :=
  match (get_countries m).find? (fun c => casefold name == casefold c.name) with
  | some c => .ok c
  | none => .error (.notFound "country" name)

/-- One decoded element of the JSON `StateList` array. -/
structure StateRec : Type where
  SehirAdiEn : String
  SehirID : Int
deriving DecidableEq

/-- One decoded element of the JSON `StateRegionList` array. -/
structure RegionRec : Type where
  IlceAdiEn : String
  IlceID : Int
  IlceUrl : String
deriving DecidableEq

/-- The comprehension body of `get_states` (lines 199-200):
`State(state["SehirAdiEn"], state["SehirID"], country)` for each record. -/
def statesOf (country : Country) (recs : List StateRec) : List State :=
  recs.map fun r => ⟨r.SehirAdiEn, r.SehirID, country⟩

/-- `Diyanet.get_states` (lines 191-200): fetch
`GetRegList?ChangeType=country&CountryId=<idx>` through the caching fetcher
and map the decoded `StateList` records to `State`s.  `decodeStates`
abstracts `json.loads(body)["StateList"]` (stdlib JSON decoding plus the
key access, either of which may raise). -/
def get_states (net : String → String)
    (decodeStates : String → Except Failure (List StateRec)) (m : Mem)
    (country : Country) : Except Failure (List State × Mem) :=
  let r := fetch net m "/tr-TR/home/GetRegList"
    [("ChangeType", "country"), ("CountryId", intValueStr country.idx)]
  match decodeStates r.1 with
  | .error e => .error e
  | .ok recs => .ok (statesOf country recs, r.2)

/-- The comprehension body of `get_regions` (lines 211-218):
`Region(r["IlceAdiEn"], r["IlceID"], r["IlceUrl"], state.country, state)`. -/
def regionsOf (st : State) (recs : List RegionRec) : List Region :=
  recs.map fun r => ⟨r.IlceAdiEn, r.IlceID, r.IlceUrl, st.country, st⟩

/-- `Diyanet.get_regions` (lines 202-218): fetch
`GetRegList?ChangeType=state&CountryId=<country.idx>&StateId=<state.idx>`
and map the decoded `StateRegionList` records to `Region`s. -/
def get_regions (net : String → String)
    (decodeRegions : String → Except Failure (List RegionRec)) (m : Mem)
    (st : State) : Except Failure (List Region × Mem) :=
  let r := fetch net m "/tr-TR/home/GetRegList"
    [("ChangeType", "state"), ("CountryId", intValueStr st.country.idx),
     ("StateId", intValueStr st.idx)]
  match decodeRegions r.1 with
  | .error e => .error e
  | .ok recs => .ok (regionsOf st recs, r.2)

/-- `Diyanet.get_state = partialmethod(_geographic_search, State)`
(lines 227-238): first case-insensitive exact name match over
`get_states(country)`, else `ValueError(f"Unknown/unsupported state: …")`. -/
def get_state (net : String → String)
    (decodeStates : String → Except Failure (List StateRec)) (m : Mem)
    (country : Country) (name : String) : Except Failure (State × Mem) :=
  match get_states net decodeStates m country with
  | .error e => .error e
  | .ok (sts, m') =>
    match sts.find? (fun s => casefold name == casefold s.name) with
    | some s => .ok (s, m')
    | none => .error (.notFound "state" name)

/-- `Diyanet.get_region = partialmethod(_geographic_search, Region)`
(lines 227-239): first case-insensitive exact name match over
`get_regions(state)`, else `ValueError(f"Unknown/unsupported region: …")`. -/
def get_region (net : String → String)
    (decodeRegions : String → Except Failure (List RegionRec)) (m : Mem)
    (st : State) (name : String) : Except Failure (Region × Mem) :=
  match get_regions net decodeRegions m st with
  | .error e => .error e
  | .ok (rs, m') =>
    match rs.find? (fun r => casefold name == casefold r.name) with
    | some r => .ok (r, m')
    | none => .error (.notFound "region" name)

/-! ## getPrayerTimes (src/diyanet.py lines 241-253) -/

/-- Modelled from the spec: `datetime.time.fromisoformat` restricted to the
`HH:MM` wall-clock strings this site serves, validated to the range
00:00-23:59 (the spec's §3 mandated time-of-day shape); the other ISO-8601
forms the stdlib function would accept (seconds, fractions) never occur
here and are rejected. -/
def time_fromisoformat (s : String) : Option Time :=
  match s.toList with
  | [h1, h2, ':', m1, m2] =>
    if h1.isDigit && h2.isDigit && m1.isDigit && m2.isDigit then
      let h := 10 * (h1.toNat - 48) + (h2.toNat - 48)
      let mi := 10 * (m1.toNat - 48) + (m2.toNat - 48)
      if h ≤ 23 && mi ≤ 59 then some ⟨h, mi⟩ else none
    else none
  | _ => none

/-- One argument of the `PrayerTimes(...)` call in `get_times`:
`time.fromisoformat(times[label])`.  `times[label]` raises `KeyError` when
the label is absent; `fromisoformat` raises `TypeError` on a `None` value
and `ValueError` on an invalid string. -/
def getTimeField (ts : List (String × Option String)) (label : String) :
    Except Failure Time :=
  match dictGet ts label with
  | none => .error (.parseError label)
  | some none => .error (.typeError label)
  | some (some raw) =>
    match time_fromisoformat raw with
    | none => .error (.timeFormatError raw)
    | some t => .ok t

/-- The `PrayerTimes(...)` construction of `get_times` (lines 245-253):
`dict(parser.times)` then the six lookups/parses in argument order. -/
def assembleTimes (ts : List (String × Option String)) : Except Failure PrayerTimes := do
  let fajr ← getTimeField ts "İmsak"
  let sunrise ← getTimeField ts "Güneş"
  let dhuhr ← getTimeField ts "Öğle"
  let asr ← getTimeField ts "İkindi"
  let maghrib ← getTimeField ts "Akşam"
  let isha ← getTimeField ts "Yatsı"
  return ⟨fajr, sunrise, dhuhr, asr, maghrib, isha⟩

/-- `Diyanet.get_times` (lines 241-253): fetch the region's own `url`
through the caching fetcher, run `PrayerTimeParser` over the page, and
assemble the six fields. -/
def get_times (net : String → String) (tok : String → List Event) (m : Mem)
    (region : Region) : Except Failure (PrayerTimes × Mem) :=
  let r := fetch net m region.url []
  match PrayerTimeParser.run PrayerTimeParser.init (tok r.1) with
  | .error e => .error e
  | .ok p =>
    match assembleTimes p.times with
    | .error e => .error e
    | .ok pt => .ok (pt, r.2)

/-- The six required labels, in the order `get_times` looks them up. -/
def sixLabels : List String := ["İmsak", "Güneş", "Öğle", "İkindi", "Akşam", "Yatsı"]

/-! ## Claim-side documents and preconditions -/

/-- The events of one `<option value="idx">label</option>` child. -/
def optEvents (q : String × Int) : List Event :=
  [.startTag "option" [("value", intValueStr q.2)], .text q.1]

/-- A valid option-list document: the targeted `<select class="cls">` with
one `<option>` child per `(label, idx)` pair, in the given document order,
each carrying an integer `value` attribute. -/
def renderOptions (cls : String) (opts : List (String × Int)) : List Event :=
  .startTag "select" [("class", cls)] :: ((opts.map optEvents).flatten ++ [.endTag "select"])

/-- The events of one well-formed `tpt-title`/`tpt-time` div pair. -/
def pairEvents (q : String × String) : List Event :=
  [.startTag "div" [("class", "tpt-title")], .text q.1, .endTag "div",
   .startTag "div" [("class", "tpt-time")], .text q.2, .endTag "div"]

/-- A well-formed prayer-times page fragment: repeated title/value div
pairs in document order. -/
def renderPairs (pairs : List (String × String)) : List Event :=
  (pairs.map pairEvents).flatten

/-- Structural invariant of `OptionParser` (established by the initial
state, preserved by every successful step): while recording with
`lasttag == "option"` the record list is non-empty, so the `options[-1]`
access in `handle_data` cannot fail. -/
def OPInv (p : OptionParser) : Prop :=
  p.record_options = true → p.lasttag = "option" → p.options ≠ []

/-- The precondition of claim C10, checked along the actual run: every
`<option>` start tag processed while the parser is recording carries a
`value` attribute that parses as an integer. -/
def optionsOk (p : OptionParser) : List Event → Bool
  | [] => true
  | e :: rest =>
    (match e with
     | .startTag t a =>
       !(p.record_options && t == "option") || ((dictGet a "value").bind pyInt).isSome
     | _ => true)
    &&
    (match OptionParser.step p e with
     | .ok p' => optionsOk p' rest
     | .error _ => true)

/-- Label `l` is present in the extracted pairs with a valid time value. -/
def labelOk (ts : List (String × Option String)) (l : String) : Bool :=
  match dictGet ts l with
  | some (some r) => (time_fromisoformat r).isSome
  | _ => false

/-- If label `l` is present at all, its value is a valid time string. -/
def labelPresentImpliesValid (ts : List (String × Option String)) (l : String) : Bool :=
  match dictGet ts l with
  | some (some r) => (time_fromisoformat r).isSome
  | some none => false
  | none => true

/-- Label `l` is present with a string (non-`None`) value. -/
def labelPresentStr (ts : List (String × Option String)) (l : String) : Bool :=
  match dictGet ts l with
  | some (some _) => true
  | _ => false

/-- Label `l` is present with a string value that is not a valid time. -/
def labelInvalid (ts : List (String × Option String)) (l : String) : Bool :=
  match dictGet ts l with
  | some (some r) => (time_fromisoformat r).isNone
  | _ => false

/-! ## Concrete fixtures for witnesses and counterexamples -/

/-- The canonical URL of the home page (no query parameters). -/
def homeUrl : String := BASE_URL ++ "/tr-TR/home?"

/-- A network oracle: empty home page, fixed body everywhere else. -/
def net0 : String → String := fun u => if u == homeUrl then "" else "BODY"

/-- A tokenizer consistent with `net0`: every served body tokenizes to no
events (the home page body is empty). -/
def tok0 : String → List Event := fun _ => []

/-- A brand-new, empty shelf (first ever run). -/
def shelf0 : Shelf := { page := none, countries := none, regions := none }

/-- The shelf as it stands after the first `initalize_db` on `shelf0`:
all three sections written, the `page` section empty. -/
def db1val : Shelf := { page := some [], countries := some [], regions := some [] }

/-- The in-memory state after the first `initalize_db` on `shelf0`: the home
page body sits in the in-memory page cache only; one network request. -/
def m1val : Mem :=
  { page_cache := [(homeUrl, "")], countries_cache := [], regions_cache := [],
    requests := 0 + 1 }

/-- The in-memory state of a restarted process opened on `db1val`: the page
cache copied from the shelf is empty again. -/
def m3val : Mem :=
  { page_cache := [], countries_cache := [], regions_cache := [], requests := 0 }

/-- An instance state with an empty page cache (for the fetch claims). -/
def memEmpty : Mem :=
  { page_cache := [], countries_cache := [], regions_cache := [], requests := 0 }

/-- The literal option-list input of the specification's §8 example:
`<select class="form-control country-select"><option value="2">Turkey</option><option value="1">Germany</option></select>`. -/
def specHtmlEvents : List Event :=
  [.startTag "select" [("class", "form-control country-select")],
   .startTag "option" [("value", "2")], .text "Turkey",
   .startTag "option" [("value", "1")], .text "Germany",
   .endTag "select"]

/-- Two well-formed title/value pairs. -/
def c4Prefix : List Event := renderPairs [("A", "1"), ("B", "2")]

/-- The two pairs followed by an isolated extra `tpt-time` div whose text
arrives while the most recent record's value is already filled. -/
def c4Events : List Event :=
  c4Prefix ++ [.startTag "div" [("class", "tpt-time")], .text "3", .endTag "div"]

/-- A well-formed six-pair prayer-times page. -/
def sixPairs : List (String × String) :=
  [("İmsak", "05:12"), ("Güneş", "06:44"), ("Öğle", "12:59"),
   ("İkindi", "15:31"), ("Akşam", "17:59"), ("Yatsı", "19:21")]

/-- A tokenizer serving the well-formed six-pair page for every body. -/
def tok5 : String → List Event := fun _ => renderPairs sixPairs

/-- A network oracle serving a fixed body. -/
def net5 : String → String := fun _ => "PAGE"

/-- Fixture country / state / region with consistent back-references. -/
def country0 : Country := { name := "Turkey", idx := 2 }

def state0 : State := { name := "Ankara", idx := 506, country := country0 }

def region0 : Region :=
  { name := "Cankaya", idx := 9206, url := "/tr-TR/9206/cankaya-icin-namaz-vakti",
    country := country0, state := state0 }

/-- The parser state after reading the six-pair page. -/
def ps5 : PrayerTimeParser :=
  { times := [("İmsak", some "05:12"), ("Güneş", some "06:44"), ("Öğle", some "12:59"),
              ("İkindi", some "15:31"), ("Akşam", some "17:59"), ("Yatsı", some "19:21")],
    record_state := none }

/-- A JSON decoder fixture returning one state record. -/
def dec6s : String → Except Failure (List StateRec) :=
  fun _ => .ok [{ SehirAdiEn := "ANKARA", SehirID := 506 }]

/-- A JSON decoder fixture returning one region record. -/
def dec6r : String → Except Failure (List RegionRec) :=
  fun _ => .ok [{ IlceAdiEn := "CANKAYA", IlceID := 9206,
                  IlceUrl := "/tr-TR/9206/cankaya-icin-namaz-vakti" }]

/-- Canonical URL of the state-list fetch for `country0`. -/
def stListUrl : String := BASE_URL ++ "/tr-TR/home/GetRegList?ChangeType=country&CountryId=2"

/-- Canonical URL of the region-list fetch for `state0`. -/
def regListUrl : String :=
  BASE_URL ++ "/tr-TR/home/GetRegList?ChangeType=state&CountryId=2&StateId=506"

/-- Instance state after the state-list fetch from `memEmpty` under `net5`. -/
def mWit2 : Mem :=
  { page_cache := [(stListUrl, "PAGE")], countries_cache := [], regions_cache := [],
    requests := 1 }

/-- Instance state after the region-list fetch from `memEmpty` under `net5`. -/
def mWit : Mem :=
  { page_cache := [(regListUrl, "PAGE")], countries_cache := [], regions_cache := [],
    requests := 1 }

/-- The state decoded from `dec6s`, with its back-reference. -/
def stWit : State := { name := "ANKARA", idx := 506, country := country0 }

/-- The region decoded from `dec6r`, with its back-references. -/
def regionWit : Region :=
  { name := "CANKAYA", idx := 9206, url := "/tr-TR/9206/cankaya-icin-namaz-vakti",
    country := country0, state := state0 }

/-- A recording parser state, for exercising the option-value boundary. -/
def p10 : OptionParser :=
  { options := [], identifier := "country-select", record_options := true,
    lasttag := "select" }

/-- An instance state whose country directory holds two countries. -/
def m7 : Mem :=
  { page_cache := [], regions_cache := [], requests := 0,
    countries_cache := [("turkey", { name := "turkey", idx := 2 }),
                       ("germany", { name := "germany", idx := 1 })] }

/-! ## Helper lemmas -/

/-- Looking up a freshly inserted key (that was absent before) hits the new
value. -/
theorem dictGet_dictSet_of_none {α : Type} (k : String) (v : α) :
    ∀ d : List (String × α), dictGet d k = none → dictGet (dictSet d k v) k = some v := by
  intro d
  induction d with
  | nil => intro _; simp [dictGet, dictSet]
  | cons p rest ih =>
    intro h
    obtain ⟨k', v'⟩ := p
    simp only [dictGet] at h
    cases hr : dictGet rest k with
    | some w => simp [hr] at h
    | none =>
      simp only [hr] at h
      cases hb : (k' == k) with
      | true => simp [hb] at h
      | false =>
        simp only [dictSet, hb, Bool.false_eq_true, if_false]
        simp only [dictGet, ih hr]

/-- A successful `get_states` returns exactly the mapped decoded records. -/
theorem get_states_ok_shape (net : String → String)
    (dec : String → Except Failure (List StateRec)) (m : Mem) (country : Country)
    (out : List State × Mem) (h : get_states net dec m country = .ok out) :
    ∃ recs, out.1 = statesOf country recs := by
  simp only [get_states] at h
  cases hd : dec (fetch net m "/tr-TR/home/GetRegList"
      [("ChangeType", "country"), ("CountryId", intValueStr country.idx)]).1 with
  | error e => rw [hd] at h; cases h
  | ok recs => rw [hd] at h; cases h; exact ⟨recs, rfl⟩

/-- A successful `get_regions` returns exactly the mapped decoded records. -/
theorem get_regions_ok_shape (net : String → String)
    (dec : String → Except Failure (List RegionRec)) (m : Mem) (st : State)
    (out : List Region × Mem) (h : get_regions net dec m st = .ok out) :
    ∃ recs, out.1 = regionsOf st recs := by
  simp only [get_regions] at h
  cases hd : dec (fetch net m "/tr-TR/home/GetRegList"
      [("ChangeType", "state"), ("CountryId", intValueStr st.country.idx),
       ("StateId", intValueStr st.idx)]).1 with
  | error e => rw [hd] at h; cases h
  | ok recs => rw [hd] at h; cases h; exact ⟨recs, rfl⟩

/-- Every region built by the `get_regions` comprehension points back at the
state it was built from and at that state's country. -/
theorem mem_regionsOf {st : State} {recs : List RegionRec} {r : Region}
    (h : r ∈ regionsOf st recs) : r.state = st ∧ r.country = st.country := by
  simp only [regionsOf, List.mem_map] at h
  obtain ⟨x, _, rfl⟩ := h
  exact ⟨rfl, rfl⟩

/-! ## C1 — cache idempotence of fetch -/

/-- C1: for every endpoint and query-parameter assignment whose canonical
URL is not yet cached, calling `fetch` twice with the same arguments
performs exactly one network request: the first (miss) call increments the
request counter once and stores the decoded body in the page cache under
the canonical URL; the second call returns the same body bit-for-bit and
leaves the whole instance state (including the request counter)
unchanged. -/
theorem C1_fetch_twice_one_request (net : String → String) (m : Mem)
    (endpoint : String) (kwargs : List (String × String))
    (hmiss : dictGet m.page_cache (BASE_URL ++ endpoint ++ "?" ++ urlencode kwargs) = none) :
    (fetch net m endpoint kwargs).2.requests = m.requests + 1 ∧
    dictGet (fetch net m endpoint kwargs).2.page_cache
        (BASE_URL ++ endpoint ++ "?" ++ urlencode kwargs) =
      some (fetch net m endpoint kwargs).1 ∧
    fetch net (fetch net m endpoint kwargs).2 endpoint kwargs =
      ((fetch net m endpoint kwargs).1, (fetch net m endpoint kwargs).2) := by
  unfold fetch do_request
  rw [hmiss]
  refine ⟨rfl, ?_, ?_⟩
  · exact dictGet_dictSet_of_none _ _ _ hmiss
  · rw [dictGet_dictSet_of_none _ _ _ hmiss]

/-- Witness for C1 at a concrete network, empty cache, endpoint `/e` and
parameters `a=b`. -/
theorem C1_witness :
    dictGet memEmpty.page_cache (BASE_URL ++ "/e" ++ "?" ++ urlencode [("a", "b")]) = none ∧
    ((fetch net5 memEmpty "/e" [("a", "b")]).2.requests = memEmpty.requests + 1 ∧
     dictGet (fetch net5 memEmpty "/e" [("a", "b")]).2.page_cache
         (BASE_URL ++ "/e" ++ "?" ++ urlencode [("a", "b")]) =
       some (fetch net5 memEmpty "/e" [("a", "b")]).1 ∧
     fetch net5 (fetch net5 memEmpty "/e" [("a", "b")]).2 "/e" [("a", "b")] =
       ((fetch net5 memEmpty "/e" [("a", "b")]).1, (fetch net5 memEmpty "/e" [("a", "b")]).2)) :=
  ⟨by decide, C1_fetch_twice_one_request net5 memEmpty "/e" [("a", "b")] (by decide)⟩

/-! ## C2 — the page cache is never written back to the persistent store -/

/-- C2 fails on the code: after a full first run (initialisation plus a
`do_request` for the previously unseen URL `…/x?`), the shelf's `page`
section is still empty — `do_request` mutated only the in-memory copy of
`db["page"]`, which `shelve` never writes back — so a restarted process
re-opened on the very same shelf misses the cache and performs the network
request again.  The claim's asserted persistence across process restarts
does not hold. -/
theorem C2_page_cache_lost_on_restart :
    initalize_db net0 tok0 shelf0 = .ok (db1val, m1val) ∧
    (fetch net0 m1val "/x" []).2.requests = m1val.requests + 1 ∧
    db1val.page = some [] ∧
    initalize_db net0 tok0 db1val = .ok (db1val, m3val) ∧
    dictGet m3val.page_cache (BASE_URL ++ "/x?") = none ∧
    (fetch net0 m3val "/x" []).2.requests = m3val.requests + 1 :=
  ⟨rfl, rfl, rfl, rfl, rfl, rfl⟩

/-! ## C7 — unknown country names fail with the not-found error -/

/-- C7: for every name matching no entry of the country directory
case-insensitively, `get_country` fails with the not-found error carrying
the hierarchy level `country` and the searched name (and in particular
never returns a value). -/
theorem C7_unknown_country_not_found (m : Mem) (name : String)
    (h : ∀ c ∈ get_countries m, casefold c.name ≠ casefold name) :
    get_country m name = .error (.notFound "country" name) := by
  unfold get_country
  cases hf : (get_countries m).find? (fun c => casefold name == casefold c.name) with
  | none => rfl
  | some c =>
    have hmem := List.mem_of_find?_eq_some hf
    have hp := List.find?_some hf
    simp only [beq_iff_eq] at hp
    exact absurd hp.symm (h c hmem)

/-- Witness for C7: `"Atlantis"` against a two-country directory. -/
theorem C7_witness :
    (∀ c ∈ get_countries m7, casefold c.name ≠ casefold "Atlantis") ∧
    get_country m7 "Atlantis" = .error (.notFound "country" "Atlantis") :=
  ⟨by decide, C7_unknown_country_not_found m7 "Atlantis" (by decide)⟩

/-! ## C9 — what resets the PrayerTimeParser state -/

/-- C9 as stated is false: a closing tag of an element other than `div`
(here `</span>`) also resets a pending "want value" state to NONE, because
`handle_endtag` ignores the tag name entirely. -/
theorem C9_counterexample :
    PrayerTimeParser.step { times := [], record_state := some RecordStates.value }
        (.endTag "span") =
      .ok { times := [], record_state := none } ∧
    some RecordStates.value ≠ (none : Option RecordStates) := by decide

/-- C9 amended: *every* closing tag — `div` or not — resets the recording
state to NONE, and no start tag resets a pending state: a start tag that is
not a `div` carrying class exactly `tpt-title` or `tpt-time` leaves the
parser state entirely unchanged (the two qualifying `div`s set the NAME /
VALUE states). -/
theorem C9_amended :
    (∀ (p : PrayerTimeParser) (tag : String),
      (PrayerTimeParser.handle_endtag p tag).record_state = none) ∧
    (∀ (p : PrayerTimeParser) (tag : String) (attrs : List (String × String)),
      (tag = "div" →
        dictGet attrs "class" ≠ some "tpt-title" ∧ dictGet attrs "class" ≠ some "tpt-time") →
      PrayerTimeParser.handle_starttag p tag attrs = p) := by
  constructor
  · intro p tag; rfl
  · intro p tag attrs h
    unfold PrayerTimeParser.handle_starttag
    cases hb : (tag == "div") with
    | false => simp [hb]
    | true =>
      simp only [hb, if_true]
      have hd := h (by simpa using hb)
      cases hc : dictGet attrs "class" with
      | none => rfl
      | some c =>
        have h1 : (c == "tpt-title") = false := by
          cases hq : (c == "tpt-title") with
          | false => rfl
          | true => exact absurd (by rw [(by simpa using hq : c = "tpt-title")] at hc; exact hc) hd.1
        have h2 : (c == "tpt-time") = false := by
          cases hq : (c == "tpt-time") with
          | false => rfl
          | true => exact absurd (by rw [(by simpa using hq : c = "tpt-time")] at hc; exact hc) hd.2
        simp [h1, h2]

/-- Witness for C9 amended: a `</p>` close resets, a `<span>` start with no
class leaves the pending state alone. -/
theorem C9_amended_witness :
    (PrayerTimeParser.handle_endtag
        { times := [], record_state := some RecordStates.name } "p").record_state = none ∧
    (("span" : String) = "div" →
      dictGet ([] : List (String × String)) "class" ≠ some "tpt-title" ∧
      dictGet ([] : List (String × String)) "class" ≠ some "tpt-time") ∧
    PrayerTimeParser.handle_starttag
        { times := [], record_state := some RecordStates.name } "span" [] =
      { times := [], record_state := some RecordStates.name } :=
  ⟨C9_amended.1 { times := [], record_state := some RecordStates.name } "p",
   by decide,
   C9_amended.2 { times := [], record_state := some RecordStates.name } "span" [] (by decide)⟩

/-! ## C4 — the corruption guard pops a completed record -/

/-- C4 as stated is false: on the page `A/1, B/2` followed by an isolated
extra `tpt-time` div, the parser pops the previously *completed* record
`("B", "2")` — the output is `[("A","1")]`, so a record completed earlier is
not retained. -/
theorem C4_counterexample :
    PrayerTimeParser.run PrayerTimeParser.init c4Prefix =
      .ok { times := [("A", some "1"), ("B", some "2")], record_state := none } ∧
    PrayerTimeParser.run PrayerTimeParser.init c4Events =
      .ok { times := [("A", some "1")], record_state := none } ∧
    (("B", some "2") : String × Option String) ∉
      [(("A" : String), (some "1" : Option String))] := by decide

/-! ## C8 — country names are case-folded, state/region names preserved -/

/-- C8 as stated is false for countries: on the specification's own literal
option-list input the source labels `Turkey`/`Germany` are stored
case-folded, so the `Country` records built by `initalize_countries` carry
the name `"turkey"`, not the original `"Turkey"`. -/
theorem C8_counterexample :
    OptionParser.run (OptionParser.init "country-select") specHtmlEvents =
      .ok { options := [(some "germany", 1), (some "turkey", 2)],
            identifier := "country-select", record_options := false,
            lasttag := "option" } ∧
    countriesOf [(some "germany", 1), (some "turkey", 2)] =
      [("germany", { name := "germany", idx := 1 }),
       ("turkey", { name := "turkey", idx := 2 })] ∧
    ("turkey" : String) ≠ "Turkey" := by decide

/-- C8 amended: state and region names are taken verbatim from the decoded
JSON records (`SehirAdiEn` / `IlceAdiEn`, original case preserved), but the
labels recorded by `OptionParser.handle_data` — and hence every country name
— are case-folded at extraction time. -/
theorem C8_amended :
    (∀ (country : Country) (recs : List StateRec),
      (statesOf country recs).map State.name = recs.map StateRec.SehirAdiEn) ∧
    (∀ (st : State) (recs : List RegionRec),
      (regionsOf st recs).map Region.name = recs.map RegionRec.IlceAdiEn) ∧
    (∀ (p : OptionParser) (d : String) (ts : List (Option String × Int)) (n : Int),
      p.record_options = true → p.lasttag = "option" → p.options = ts ++ [(none, n)] →
      OptionParser.handle_data p d =
        .ok { p with options := ts ++ [(some (casefold d), n)] }) := by
  refine ⟨?_, ?_, ?_⟩
  · intro country recs; simp [statesOf]
  · intro st recs; simp [regionsOf]
  · intro p d ts n hr hl ho
    obtain ⟨po, pid, prec, plast⟩ := p
    simp only at hr hl ho
    subst hr; subst hl; subst ho
    simp [OptionParser.handle_data, List.getLast?_concat, List.dropLast_concat]

/-- Witness for C8 amended, at a concrete recording parser state: the text
`Turkey` is stored as `turkey`. -/
theorem C8_amended_witness :
    OptionParser.handle_data
        { options := [(none, 7)], identifier := "country-select",
          record_options := true, lasttag := "option" } "Turkey" =
      .ok { options := [(some (casefold "Turkey"), 7)], identifier := "country-select",
            record_options := true, lasttag := "option" } :=
  C8_amended.2.2
    { options := [(none, 7)], identifier := "country-select",
      record_options := true, lasttag := "option" } "Turkey" [] 7 rfl rfl rfl

/-! ## C6 — back-reference consistency -/

/-- C6: every state produced by `get_states` points back at the country
argument; every region produced by `get_regions` points back at the state
argument and at that state's country (so `region.country =
region.state.country`); and the region returned by a successful
`get_region` satisfies the same invariants. -/
theorem C6_back_references :
    (∀ (net : String → String) (dec : String → Except Failure (List StateRec))
       (m : Mem) (country : Country) (out : List State × Mem),
       get_states net dec m country = .ok out → ∀ st ∈ out.1, st.country = country) ∧
    (∀ (net : String → String) (dec : String → Except Failure (List RegionRec))
       (m : Mem) (st : State) (out : List Region × Mem),
       get_regions net dec m st = .ok out →
       ∀ r ∈ out.1, r.state = st ∧ r.country = st.country ∧ r.country = r.state.country) ∧
    (∀ (net : String → String) (dec : String → Except Failure (List RegionRec))
       (m : Mem) (st : State) (name : String) (out : Region × Mem),
       get_region net dec m st name = .ok out →
       out.1.state = st ∧ out.1.country = out.1.state.country) := by
  have hreg : ∀ (net : String → String) (dec : String → Except Failure (List RegionRec))
      (m : Mem) (st : State) (out : List Region × Mem),
      get_regions net dec m st = .ok out →
      ∀ r ∈ out.1, r.state = st ∧ r.country = st.country ∧ r.country = r.state.country := by
    intro net dec m st out h r hmem
    obtain ⟨recs, hrecs⟩ := get_regions_ok_shape net dec m st out h
    rw [hrecs] at hmem
    obtain ⟨h1, h2⟩ := mem_regionsOf hmem
    exact ⟨h1, h2, by rw [h1, h2]⟩
  refine ⟨?_, hreg, ?_⟩
  · intro net dec m country out h st hmem
    obtain ⟨recs, hrecs⟩ := get_states_ok_shape net dec m country out h
    rw [hrecs] at hmem
    simp only [statesOf, List.mem_map] at hmem
    obtain ⟨x, _, rfl⟩ := hmem
    rfl
  · intro net dec m st name out h
    simp only [get_region] at h
    cases hg : get_regions net dec m st with
    | error e => rw [hg] at h; cases h
    | ok rsm =>
      obtain ⟨rs, m'⟩ := rsm
      rw [hg] at h
      dsimp only at h
      cases hf : rs.find? (fun r => casefold name == casefold r.name) with
      | none => rw [hf] at h; cases h
      | some r =>
        rw [hf] at h
        cases h
        have hmem := List.mem_of_find?_eq_some hf
        obtain ⟨h1, _, h3⟩ := hreg net dec m st (rs, m') hg r hmem
        exact ⟨h1, h3⟩

/-- Witness for C6 at concrete decoders: one state under `country0`, one
region under `state0`, found by case-insensitive name search. -/
theorem C6_witness :
    get_states net5 dec6s memEmpty country0 = .ok ([stWit], mWit2) ∧
    (∀ st ∈ [stWit], st.country = country0) ∧
    get_region net5 dec6r memEmpty state0 "Cankaya" = .ok (regionWit, mWit) ∧
    regionWit.state = state0 ∧ regionWit.country = regionWit.state.country := by
  have hs : get_states net5 dec6s memEmpty country0 = .ok ([stWit], mWit2) := by decide
  have hr : get_region net5 dec6r memEmpty state0 "Cankaya" = .ok (regionWit, mWit) := by decide
  exact ⟨hs, C6_back_references.1 net5 dec6s memEmpty country0 ([stWit], mWit2) hs, hr,
    (C6_back_references.2.2 net5 dec6r memEmpty state0 "Cankaya" (regionWit, mWit) hr).1,
    (C6_back_references.2.2 net5 dec6r memEmpty state0 "Cankaya" (regionWit, mWit) hr).2⟩

/-- One successful parser step peels one event off a run. -/
theorem PTP_run_cons (p p' : PrayerTimeParser) (e : Event) (es : List Event)
    (hs : PrayerTimeParser.step p e = .ok p') :
    PrayerTimeParser.run p (e :: es) = PrayerTimeParser.run p' es := by
  simp [PrayerTimeParser.run, hs]

/-- Executing one well-formed title/value div pair appends one completed
record, provided no unfilled record is pending. -/
theorem PTP_run_pairEvents (t v : String) (acc : List (String × Option String))
    (h : (acc.isEmpty || lastValueFilled acc) = true) (rest : List Event) :
    PrayerTimeParser.run { times := acc, record_state := none } (pairEvents (t, v) ++ rest) =
      PrayerTimeParser.run { times := acc ++ [(pyStrip t, some v)], record_state := none }
        rest := by
  have e1 : PrayerTimeParser.step { times := acc, record_state := none }
      (.startTag "div" [("class", "tpt-title")]) =
      .ok { times := acc, record_state := some RecordStates.name } := rfl
  have e2 : PrayerTimeParser.step { times := acc, record_state := some RecordStates.name }
      (.text t) =
      .ok { times := acc ++ [(pyStrip t, none)], record_state := some RecordStates.name } := by
    simp [PrayerTimeParser.step, PrayerTimeParser.handle_data, h]
  have e3 : PrayerTimeParser.step
      { times := acc ++ [(pyStrip t, none)], record_state := some RecordStates.name }
      (.endTag "div") =
      .ok { times := acc ++ [(pyStrip t, none)], record_state := none } := rfl
  have e4 : PrayerTimeParser.step
      { times := acc ++ [(pyStrip t, none)], record_state := none }
      (.startTag "div" [("class", "tpt-time")]) =
      .ok { times := acc ++ [(pyStrip t, none)], record_state := some RecordStates.value } := rfl
  have e5 : PrayerTimeParser.step
      { times := acc ++ [(pyStrip t, none)], record_state := some RecordStates.value }
      (.text v) =
      .ok { times := acc ++ [(pyStrip t, some v)], record_state := some RecordStates.value } := by
    simp [PrayerTimeParser.step, PrayerTimeParser.handle_data, List.getLast?_concat,
      List.dropLast_concat]
  have e6 : PrayerTimeParser.step
      { times := acc ++ [(pyStrip t, some v)], record_state := some RecordStates.value }
      (.endTag "div") =
      .ok { times := acc ++ [(pyStrip t, some v)], record_state := none } := rfl
  simp only [pairEvents, List.cons_append, List.nil_append]
  rw [PTP_run_cons _ _ _ _ e1, PTP_run_cons _ _ _ _ e2, PTP_run_cons _ _ _ _ e3,
    PTP_run_cons _ _ _ _ e4, PTP_run_cons _ _ _ _ e5, PTP_run_cons _ _ _ _ e6]

/-- Running the parser over a well-formed page appends one completed record
per rendered pair, in document order. -/
theorem PTP_run_renderPairs : ∀ (pairs : List (String × String))
    (acc : List (String × Option String)),
    (acc.isEmpty || lastValueFilled acc) = true →
    PrayerTimeParser.run { times := acc, record_state := none } (renderPairs pairs) =
      .ok { times := acc ++ pairs.map (fun q => (pyStrip q.1, some q.2)),
            record_state := none } := by
  intro pairs
  induction pairs with
  | nil => intro acc _; simp [renderPairs, PrayerTimeParser.run]
  | cons q rest ih =>
    intro acc h
    obtain ⟨t, v⟩ := q
    have hr : renderPairs ((t, v) :: rest) = pairEvents (t, v) ++ renderPairs rest := by
      simp [renderPairs]
    rw [hr, PTP_run_pairEvents t v acc h (renderPairs rest),
      ih (acc ++ [(pyStrip t, some v)]) (by simp [lastValueFilled, List.getLast?_concat])]
    simp

/-! ## C4 amended -/

/-- C4 amended: when text arrives in the "want value" state but the most
recent record's value is already filled, `handle_data` pops that most recent
(completed) record and discards the stray text — records *before* the most
recent are retained unchanged; and on a well-formed page of title/value div
pairs the parser returns one (label, value) pair per source pair, in
document order (six pairs for a six-pair page). -/
theorem C4_amended :
    (∀ (p : PrayerTimeParser) (d : String) (ts : List (String × Option String)) (n v : String),
      p.record_state = some RecordStates.value → p.times = ts ++ [(n, some v)] →
      PrayerTimeParser.handle_data p d = .ok { p with times := ts }) ∧
    (∀ pairs : List (String × String),
      PrayerTimeParser.run PrayerTimeParser.init (renderPairs pairs) =
        .ok { times := pairs.map (fun q => (pyStrip q.1, some q.2)),
              record_state := none }) := by
  constructor
  · intro p d ts n v hrs hts
    obtain ⟨pt, prs⟩ := p
    simp only at hrs hts
    subst hrs; subst hts
    simp [PrayerTimeParser.handle_data, List.getLast?_concat, List.dropLast_concat]
  · intro pairs
    have h := PTP_run_renderPairs pairs [] rfl
    simpa using h

/-- Witness for C4 amended: popping at a concrete filled state. -/
theorem C4_amended_witness :
    PrayerTimeParser.handle_data
        { times := [("A", some "1"), ("B", some "2")],
          record_state := some RecordStates.value } "3" =
      .ok { times := [("A", some "1")], record_state := some RecordStates.value } :=
  C4_amended.1
    { times := [("A", some "1"), ("B", some "2")],
      record_state := some RecordStates.value } "3" [("A", some "1")] "B" "2" rfl rfl

/-! ## Decimal rendering round-trips through pyInt -/

/-- Rendering a digit below ten yields a digit character. -/
theorem digitChar_isDigit (d : Nat) (h : d < 10) : (digitChar d).isDigit = true := by
  interval_cases d <;> decide

/-- Value of a rendered digit character. -/
theorem digitChar_val (d : Nat) (h : d < 10) : (digitChar d).toNat - 48 = d := by
  interval_cases d <;> decide

/-- Appending one digit multiplies the accumulated value by ten. -/
theorem digitsVal_append_digit (l : List Char) (c : Char) :
    digitsVal (l ++ [c]) = 10 * digitsVal l + (c.toNat - 48) := by
  simp [digitsVal, List.foldl_append]

/-- The fuel-based digit renderer produces a non-empty all-digit string
whose value is the rendered number, whenever the fuel suffices. -/
theorem natToDigitsAux_spec : ∀ (fuel n : Nat), n < fuel →
    isDigits (natToDigitsAux fuel n) = true ∧ digitsVal (natToDigitsAux fuel n) = n := by
  intro fuel
  induction fuel with
  | zero => intro n h; omega
  | succ f ih =>
    intro n h
    by_cases h10 : n < 10
    · simp only [natToDigitsAux, if_pos h10]
      exact ⟨by simp [isDigits, digitChar_isDigit n h10],
        by simp [digitsVal, digitChar_val n h10]⟩
    · simp only [natToDigitsAux, if_neg h10]
      have hlt : n / 10 < f := by
        have := Nat.div_lt_self (by omega : 0 < n) (by omega : (1 : Nat) < 10)
        omega
      obtain ⟨hd, hv⟩ := ih (n / 10) hlt
      constructor
      · simp only [isDigits, List.all_append, Bool.and_eq_true, Bool.not_eq_true',
          List.isEmpty_eq_false] at hd ⊢
        refine ⟨by simp, hd.2, by simp [digitChar_isDigit (n % 10) (by omega)]⟩
      · rw [digitsVal_append_digit, hv, digitChar_val (n % 10) (by omega)]
        omega

/-- `natToDigits` is correct. -/
theorem natToDigits_spec (n : Nat) :
    isDigits (natToDigits n) = true ∧ digitsVal (natToDigits n) = n :=
  natToDigitsAux_spec (n + 1) n (by omega)

/-- A digit character is not any specific non-digit character. -/
theorem isDigit_beq_false (c x : Char) (h : c.isDigit = true) (hx : x.isDigit = false) :
    (c == x) = false := by
  cases hq : c == x with
  | false => rfl
  | true =>
    have hcx : c = x := by simpa using hq
    subst hcx
    rw [h] at hx
    cases hx

/-- A digit character is not an `int()`-whitespace character. -/
theorem isPySpace_eq_false_of_isDigit (c : Char) (h : c.isDigit = true) :
    isPySpace c = false := by
  unfold isPySpace
  simp [isDigit_beq_false c ' ' h (by decide), isDigit_beq_false c '\t' h (by decide),
    isDigit_beq_false c '\n' h (by decide), isDigit_beq_false c '\x0b' h (by decide),
    isDigit_beq_false c '\x0c' h (by decide), isDigit_beq_false c '\r' h (by decide)]

/-- `dropWhile` is the identity on a list none of whose elements satisfy the
predicate. -/
theorem dropWhile_all_neg {p : Char → Bool} :
    ∀ l : List Char, l.all (fun c => !p c) = true → l.dropWhile p = l := by
  intro l h
  cases l with
  | nil => rfl
  | cons c rest =>
    simp only [List.all_cons, Bool.and_eq_true, Bool.not_eq_true'] at h
    simp [List.dropWhile_cons, h.1]

/-- Whitespace-stripping is the identity on whitespace-free lists. -/
theorem stripPyWs_all_neg (l : List Char)
    (h : l.all (fun c => !isPySpace c) = true) : stripPyWs l = l := by
  unfold stripPyWs
  rw [dropWhile_all_neg l h,
    dropWhile_all_neg l.reverse (by simpa [List.all_reverse] using h),
    List.reverse_reverse]

/-- An all-digit list is whitespace-free. -/
theorem not_space_of_digits (l : List Char) (h : l.all Char.isDigit = true) :
    l.all (fun c => !isPySpace c) = true := by
  simp only [List.all_eq_true] at h ⊢
  intro c hc
  simp [isPySpace_eq_false_of_isDigit c (h c hc)]

/-- On a plain digit list the underscore-tolerant digit loop just folds the
value. -/
theorem pyDigitsUnd_digits : ∀ (l : List Char) (acc : Nat),
    l.all Char.isDigit = true →
    pyDigitsUnd l acc = some (l.foldl (fun a c => 10 * a + (c.toNat - 48)) acc) := by
  intro l
  induction l with
  | nil => intro acc _; rfl
  | cons c rest ih =>
    intro acc h
    simp only [List.all_cons, Bool.and_eq_true] at h
    unfold pyDigitsUnd
    rw [if_pos h.1, ih _ h.2]
    simp

/-- `int()`'s digit part accepts every non-empty plain digit list and
computes its value. -/
theorem pyIntCore_digits (l : List Char) (h : isDigits l = true) :
    pyIntCore l = some (digitsVal l) := by
  cases l with
  | nil => simp [isDigits] at h
  | cons c rest =>
    simp only [isDigits, List.all_cons, Bool.and_eq_true] at h
    simp only [pyIntCore, h.2.1, if_true]
    rw [pyDigitsUnd_digits rest _ h.2.2]
    simp [digitsVal]

/-- Python's `int` parses the decimal rendering of every integer back to
itself. -/
theorem pyInt_intValueStr (i : Int) : pyInt (intValueStr i) = some i := by
  cases i with
  | ofNat n =>
    obtain ⟨hd, hv⟩ := natToDigits_spec n
    have hall : (natToDigits n).all Char.isDigit = true := by
      simp only [isDigits, Bool.and_eq_true] at hd
      exact hd.2
    simp only [intValueStr]
    unfold pyInt
    rw [show (⟨natToDigits n⟩ : String).data = natToDigits n from rfl,
      stripPyWs_all_neg _ (not_space_of_digits _ hall)]
    cases hl : natToDigits n with
    | nil => rw [hl] at hd; simp [isDigits] at hd
    | cons c rest =>
      rw [hl] at hd hall hv
      have hcdig : c.isDigit = true := by
        simp only [List.all_cons, Bool.and_eq_true] at hall
        exact hall.1
      have hne1 : (c == '-') = false := isDigit_beq_false c '-' hcdig (by decide)
      have hne2 : (c == '+') = false := isDigit_beq_false c '+' hcdig (by decide)
      simp [hne1, hne2, pyIntCore_digits _ hd, hv]
  | negSucc n =>
    obtain ⟨hd, hv⟩ := natToDigits_spec (n + 1)
    have hall : (natToDigits (n + 1)).all Char.isDigit = true := by
      simp only [isDigits, Bool.and_eq_true] at hd
      exact hd.2
    have hns : ('-' :: natToDigits (n + 1)).all (fun c => !isPySpace c) = true := by
      simp only [List.all_cons, Bool.and_eq_true]
      exact ⟨by decide, not_space_of_digits _ hall⟩
    simp only [intValueStr]
    unfold pyInt
    rw [show (⟨'-' :: natToDigits (n + 1)⟩ : String).data = '-' :: natToDigits (n + 1)
        from rfl,
      stripPyWs_all_neg _ hns]
    simp only [show (('-' : Char) == '-') = true from rfl, if_true,
      pyIntCore_digits _ hd, hv, Option.map_some]
    congr 1

/-! ## Sorting lemmas for the option records -/

/-- Insertion produces a permutation. -/
theorem insertByIdx_perm (x : Option String × Int) :
    ∀ l, List.Perm (insertByIdx x l) (x :: l) := by
  intro l
  induction l with
  | nil => simp [insertByIdx]
  | cons y ys ih =>
    by_cases hb : y.2 < x.2
    · simp only [insertByIdx, if_pos hb]
      exact (ih.cons y).trans (List.Perm.swap x y ys)
    · simp [insertByIdx, if_neg hb]

/-- The sort is a permutation of its input. -/
theorem sortByIdx_perm : ∀ l, List.Perm (sortByIdx l) l := by
  intro l
  induction l with
  | nil => simp [sortByIdx]
  | cons x xs ih => exact (insertByIdx_perm x (sortByIdx xs)).trans (ih.cons x)

/-- The sort preserves length. -/
theorem sortByIdx_length (l : List (Option String × Int)) :
    (sortByIdx l).length = l.length :=
  (sortByIdx_perm l).length_eq

/-- Insertion into a list sorted ascending by `idx` keeps it sorted. -/
theorem sorted_insertByIdx (x : Option String × Int) :
    ∀ l, List.Sorted (fun a b : Option String × Int => a.2 ≤ b.2) l →
      List.Sorted (fun a b : Option String × Int => a.2 ≤ b.2) (insertByIdx x l) := by
  intro l
  induction l with
  | nil => intro _; simp [insertByIdx]
  | cons y ys ih =>
    intro h
    rw [List.sorted_cons] at h
    obtain ⟨hy, hys⟩ := h
    by_cases hb : y.2 < x.2
    · simp only [insertByIdx, if_pos hb]
      rw [List.sorted_cons]
      refine ⟨?_, ih hys⟩
      intro z hz
      rcases List.mem_cons.mp ((insertByIdx_perm x ys).mem_iff.mp hz) with rfl | hz'
      · exact le_of_lt hb
      · exact hy z hz'
    · simp only [insertByIdx, if_neg hb]
      rw [List.sorted_cons]
      have hxy : x.2 ≤ y.2 := Int.not_lt.mp hb
      constructor
      · intro z hz
        rcases List.mem_cons.mp hz with rfl | hz'
        · exact hxy
        · exact le_trans hxy (hy z hz')
      · rw [List.sorted_cons]; exact ⟨hy, hys⟩

/-- The sort's output is sorted ascending by `idx`. -/
theorem sorted_sortByIdx :
    ∀ l, List.Sorted (fun a b : Option String × Int => a.2 ≤ b.2) (sortByIdx l) := by
  intro l
  induction l with
  | nil => simp [sortByIdx]
  | cons x xs ih => exact sorted_insertByIdx x (sortByIdx xs) ih

/-! ## OptionParser run lemmas -/

/-- One successful parser step peels one event off a run. -/
theorem OP_run_cons (p p' : OptionParser) (e : Event) (es : List Event)
    (hs : OptionParser.step p e = .ok p') :
    OptionParser.run p (e :: es) = OptionParser.run p' es := by
  simp [OptionParser.run, hs]

/-- A run over an append continues from the mid state. -/
theorem OP_run_append : ∀ (l1 : List Event) (p p' : OptionParser) (l2 : List Event),
    OptionParser.run p l1 = .ok p' →
    OptionParser.run p (l1 ++ l2) = OptionParser.run p' l2 := by
  intro l1
  induction l1 with
  | nil =>
    intro p p' l2 h
    simp only [OptionParser.run] at h
    cases h
    simp
  | cons e es ih =>
    intro p p' l2 h
    simp only [OptionParser.run] at h
    cases hs : OptionParser.step p e with
    | error err => rw [hs] at h; cases h
    | ok q =>
      rw [hs] at h
      rw [List.cons_append, OP_run_cons _ _ _ _ hs]
      exact ih q p' l2 h

/-- While recording, the option children append one record each, labels
case-folded, `idx` parsed from the rendered `value` attribute. -/
theorem OP_run_optsBody : ∀ (opts : List (String × Int)) (p : OptionParser),
    p.record_options = true →
    ∃ lt, OptionParser.run p ((opts.map optEvents).flatten) =
      .ok { p with
            options := p.options ++ opts.map (fun q => (some (casefold q.1), q.2)),
            lasttag := lt } := by
  intro opts
  induction opts with
  | nil =>
    intro p _
    exact ⟨p.lasttag, by simp [OptionParser.run]⟩
  | cons q rest ih =>
    intro p hrec
    obtain ⟨l, i⟩ := q
    have e1 : OptionParser.step p (.startTag "option" [("value", intValueStr i)]) =
        .ok { p with lasttag := "option", options := p.options ++ [(none, i)] } := by
      simp [OptionParser.step, OptionParser.handle_starttag, hrec, pyInt_intValueStr,
        dictGet]
    have e2 : OptionParser.step
        { p with lasttag := "option", options := p.options ++ [(none, i)] } (.text l) =
        .ok { p with
              lasttag := "option"
              options := p.options ++ [(some (casefold l), i)] } := by
      simp [OptionParser.step, OptionParser.handle_data, hrec, List.getLast?_concat,
        List.dropLast_concat]
    have hfl : ((((l, i) :: rest).map optEvents).flatten) =
        .startTag "option" [("value", intValueStr i)] :: .text l ::
          ((rest.map optEvents).flatten) := by
      simp [optEvents]
    rw [hfl, OP_run_cons _ _ _ _ e1, OP_run_cons _ _ _ _ e2]
    obtain ⟨lt, hrun⟩ := ih
      { p with lasttag := "option", options := p.options ++ [(some (casefold l), i)] }
      (by simp [hrec])
    refine ⟨lt, ?_⟩
    rw [hrun]
    simp [List.append_assoc]

/-! ## C3 — the option extractor returns N pairs sorted ascending by idx -/

/-- C3: for every valid option-list document whose targeted `select` (class
containing the identifier substring) holds N option children with integer
`value` attributes — in any document order — the extractor returns exactly
those N (label, idx) records (labels case-folded), sorted ascending by
`idx`. -/
theorem C3_option_extractor (opts : List (String × Int)) (ident cls : String)
    (hin : pyIn ident cls = true) :
    ∃ p, OptionParser.run (OptionParser.init ident) (renderOptions cls opts) = .ok p ∧
      p.options = sortByIdx (opts.map (fun q => (some (casefold q.1), q.2))) ∧
      p.options.length = opts.length ∧
      List.Sorted (fun a b : Option String × Int => a.2 ≤ b.2) p.options ∧
      List.Perm p.options (opts.map (fun q => (some (casefold q.1), q.2))) := by
  have e0 : OptionParser.step (OptionParser.init ident)
      (.startTag "select" [("class", cls)]) =
      .ok { options := [], identifier := ident, record_options := true,
            lasttag := "select" } := by
    simp [OptionParser.step, OptionParser.handle_starttag, OptionParser.init, dictGet, hin]
  obtain ⟨lt, hbody⟩ := OP_run_optsBody opts
    { options := [], identifier := ident, record_options := true, lasttag := "select" } rfl
  have hend : OptionParser.run
      { options := [], identifier := ident, record_options := true, lasttag := "select" }
      (((opts.map optEvents).flatten) ++ [.endTag "select"]) =
      .ok { options := sortByIdx (opts.map (fun q => (some (casefold q.1), q.2))),
            identifier := ident, record_options := false, lasttag := lt } := by
    rw [OP_run_append _ _ _ _ hbody]
    simp [OptionParser.run, OptionParser.step, OptionParser.handle_endtag]
  refine ⟨{ options := sortByIdx (opts.map (fun q => (some (casefold q.1), q.2))),
            identifier := ident, record_options := false, lasttag := lt }, ?_, rfl, ?_, ?_, ?_⟩
  · rw [show renderOptions cls opts =
      .startTag "select" [("class", cls)] ::
        (((opts.map optEvents).flatten) ++ [.endTag "select"]) from by simp [renderOptions]]
    rw [OP_run_cons _ _ _ _ e0]
    exact hend
  · simp only
    rw [sortByIdx_length, List.length_map]
  · exact sorted_sortByIdx _
  · exact sortByIdx_perm _

/-- Witness for C3 at the specification's literal example: two options in
descending-idx document order come out ascending. -/
theorem C3_witness :
    pyIn "country-select" "form-control country-select" = true ∧
    ∃ p, OptionParser.run (OptionParser.init "country-select")
        (renderOptions "form-control country-select" [("Turkey", 2), ("Germany", 1)]) =
          .ok p ∧
      p.options = sortByIdx ([("Turkey", (2 : Int)), ("Germany", 1)].map
        (fun q => (some (casefold q.1), q.2))) ∧
      p.options.length = [("Turkey", (2 : Int)), ("Germany", 1)].length ∧
      List.Sorted (fun a b : Option String × Int => a.2 ≤ b.2) p.options ∧
      List.Perm p.options ([("Turkey", (2 : Int)), ("Germany", 1)].map
        (fun q => (some (casefold q.1), q.2))) :=
  ⟨by decide, C3_option_extractor [("Turkey", 2), ("Germany", 1)] "country-select"
    "form-control country-select" (by decide)⟩

/-! ## C10 — exceptions of the option extractor -/

/-- The structural invariant holds initially. -/
theorem OPInv_init (ident : String) : OPInv (OptionParser.init ident) := by
  intro _ h2
  simp [OptionParser.init] at h2

/-- The structural invariant is preserved by every successful step. -/
theorem OPInv_step (p p' : OptionParser) (e : Event) (h : OPInv p)
    (hs : OptionParser.step p e = .ok p') : OPInv p' := by
  cases e with
  | startTag t a =>
    simp only [OptionParser.step, OptionParser.handle_starttag] at hs
    by_cases hsel : (t == "select" &&
        (match dictGet a "class" with
         | some c => pyIn p.identifier c
         | none => false)) = true
    · rw [if_pos hsel] at hs
      cases hs
      intro _ hlast
      have hts : t = "select" := by
        have := (Bool.and_eq_true _ _).mp hsel
        simpa using this.1
      rw [hts] at hlast
      simp at hlast
    · rw [if_neg hsel] at hs
      by_cases hopt : (p.record_options && t == "option") = true
      · rw [if_pos hopt] at hs
        cases hd : dictGet a "value" with
        | none => rw [hd] at hs; cases hs
        | some v =>
          rw [hd] at hs
          dsimp only at hs
          cases hpi : pyInt v with
          | none => rw [hpi] at hs; cases hs
          | some n =>
            rw [hpi] at hs
            cases hs
            intro _ _
            simp
      · rw [if_neg hopt] at hs
        cases hs
        intro hrec hlast
        dsimp only at hrec hlast ⊢
        rw [hlast] at hopt
        simp [hrec] at hopt
  | text d =>
    simp only [OptionParser.step, OptionParser.handle_data] at hs
    by_cases hc : (p.record_options && p.lasttag == "option") = true
    · rw [if_pos hc] at hs
      cases hl : p.options.getLast? with
      | none => rw [hl] at hs; cases hs
      | some q =>
        rw [hl] at hs
        obtain ⟨lbl, idx⟩ := q
        dsimp only at hs
        by_cases hlbl : (lbl == none) = true
        · rw [if_pos hlbl] at hs
          cases hs
          intro _ _
          simp
        · rw [if_neg hlbl] at hs
          cases hs
          exact h
    · rw [if_neg hc] at hs
      cases hs
      exact h
  | endTag t =>
    simp only [OptionParser.step, OptionParser.handle_endtag] at hs
    by_cases he : (t == "select" && p.record_options) = true
    · rw [if_pos he] at hs
      cases hs
      intro hrec _
      simp at hrec
    · rw [if_neg he] at hs
      cases hs
      exact h

/-- Under the invariant, a step whose C10 precondition holds succeeds. -/
theorem OP_step_ok_of_check (p : OptionParser) (e : Event) (hInv : OPInv p)
    (hchk : (match e with
             | .startTag t a =>
               !(p.record_options && t == "option") || ((dictGet a "value").bind pyInt).isSome
             | _ => true) = true) :
    ∃ p', OptionParser.step p e = .ok p' := by
  cases e with
  | startTag t a =>
    simp only [OptionParser.step, OptionParser.handle_starttag]
    by_cases hsel : (t == "select" &&
        (match dictGet a "class" with
         | some c => pyIn p.identifier c
         | none => false)) = true
    · rw [if_pos hsel]; exact ⟨_, rfl⟩
    · rw [if_neg hsel]
      by_cases hopt : (p.record_options && t == "option") = true
      · rw [if_pos hopt]
        simp only [hopt, Bool.not_true, Bool.false_or] at hchk
        cases hd : dictGet a "value" with
        | none => rw [hd] at hchk; cases hchk
        | some v =>
          rw [hd] at hchk
          dsimp only
          cases hpi : pyInt v with
          | none => simp [hpi] at hchk
          | some n => exact ⟨_, rfl⟩
      · rw [if_neg hopt]; exact ⟨_, rfl⟩
  | text d =>
    simp only [OptionParser.step, OptionParser.handle_data]
    by_cases hc : (p.record_options && p.lasttag == "option") = true
    · rw [if_pos hc]
      have hcc := (Bool.and_eq_true _ _).mp hc
      have hne : p.options ≠ [] := hInv hcc.1 (by simpa using hcc.2)
      cases hl : p.options.getLast? with
      | none => exact absurd (by simpa [List.getLast?_eq_none_iff] using hl) hne
      | some q =>
        obtain ⟨lbl, idx⟩ := q
        dsimp only
        by_cases hlbl : (lbl == none) = true
        · rw [if_pos hlbl]; exact ⟨_, rfl⟩
        · rw [if_neg hlbl]; exact ⟨_, rfl⟩
    · rw [if_neg hc]; exact ⟨_, rfl⟩
  | endTag t => exact ⟨_, rfl⟩

/-- Under the invariant and the C10 precondition, the whole run succeeds. -/
theorem OP_run_ok_of_optionsOk : ∀ (events : List Event) (p : OptionParser),
    OPInv p → optionsOk p events = true → ∃ p', OptionParser.run p events = .ok p' := by
  intro events
  induction events with
  | nil => intro p _ _; exact ⟨p, rfl⟩
  | cons e rest ih =>
    intro p hInv hok
    simp only [optionsOk, Bool.and_eq_true] at hok
    obtain ⟨hchk, hrest⟩ := hok
    obtain ⟨p', hs⟩ := OP_step_ok_of_check p e hInv hchk
    rw [hs] at hrest
    rw [OP_run_cons _ _ _ _ hs]
    exact ih p' (OPInv_step p p' e hInv hs) hrest

/-- C10: while recording, an `<option>` start tag whose attributes lack a
`value` entry raises `KeyError`, and one whose `value` attribute `int()`
rejects raises `ValueError` (the step fails; the raising part for values is
stated for ASCII attribute strings, where `pyInt` is an exact model of
`int()` — Python additionally accepts non-ASCII decimal digits, which never
occur in these documents); and under the precondition that every option
encountered while recording carries a `value` attribute `int()` accepts, a
run from any invariant-respecting state (the initial state in particular)
raises no exception. -/
theorem C10_option_value_safety :
    (∀ (p : OptionParser) (attrs : List (String × String)),
      p.record_options = true → dictGet attrs "value" = none →
      OptionParser.step p (.startTag "option" attrs) = .error (.keyError "value")) ∧
    (∀ (p : OptionParser) (attrs : List (String × String)) (v : String),
      p.record_options = true → dictGet attrs "value" = some v →
      v.data.all (fun c => c.toNat < 128) = true → pyInt v = none →
      OptionParser.step p (.startTag "option" attrs) = .error (.valueError v)) ∧
    (∀ (p : OptionParser) (events : List Event),
      OPInv p → optionsOk p events = true →
      ∃ p', OptionParser.run p events = .ok p') := by
  refine ⟨?_, ?_, ?_⟩
  · intro p attrs hrec hd
    simp only [OptionParser.step, OptionParser.handle_starttag]
    rw [if_neg (by simp)]
    rw [if_pos (by simp [hrec])]
    rw [hd]
  · intro p attrs v hrec hd _hascii hpi
    simp only [OptionParser.step, OptionParser.handle_starttag]
    rw [if_neg (by simp)]
    rw [if_pos (by simp [hrec])]
    rw [hd]
    dsimp only
    rw [hpi]
  · intro p events hInv hok
    exact OP_run_ok_of_optionsOk events p hInv hok

/-- Witness for C10: a recording parser raises `KeyError` without a `value`
attribute and `ValueError` on `value="abc"`, while `value=" 5"` — which
Python's `int()` parses despite the surrounding whitespace — appends a
record without raising, and the specification's literal document runs to
completion from the initial state. -/
theorem C10_witness :
    p10.record_options = true ∧
    dictGet [("class", "x")] "value" = none ∧
    OptionParser.step p10 (.startTag "option" [("class", "x")]) =
      .error (.keyError "value") ∧
    dictGet [("value", "abc")] "value" = some "abc" ∧
    "abc".data.all (fun c => c.toNat < 128) = true ∧
    pyInt "abc" = none ∧
    OptionParser.step p10 (.startTag "option" [("value", "abc")]) =
      .error (.valueError "abc") ∧
    pyInt " 5" = some 5 ∧
    OptionParser.step p10 (.startTag "option" [("value", " 5")]) =
      .ok { p10 with lasttag := "option", options := p10.options ++ [(none, 5)] } ∧
    OPInv (OptionParser.init "country-select") ∧
    optionsOk (OptionParser.init "country-select") specHtmlEvents = true ∧
    (∃ p', OptionParser.run (OptionParser.init "country-select") specHtmlEvents = .ok p') :=
  ⟨rfl, rfl,
   C10_option_value_safety.1 p10 [("class", "x")] rfl rfl,
   rfl, by decide, by decide,
   C10_option_value_safety.2.1 p10 [("value", "abc")] "abc" rfl rfl (by decide) (by decide),
   by decide, by decide,
   OPInv_init "country-select", by decide,
   C10_option_value_safety.2.2 (OptionParser.init "country-select") specHtmlEvents
     (OPInv_init "country-select") (by decide)⟩

/-! ## C5 — error behaviour of getPrayerTimes -/

/-- Bind on a successful `Except` computation. -/
theorem except_ok_bind {ε α β : Type} (a : α) (f : α → Except ε β) :
    (Except.ok a : Except ε α) >>= f = f a := rfl

/-- Bind on a failed `Except` computation. -/
theorem except_error_bind {ε α β : Type} (e : ε) (f : α → Except ε β) :
    (Except.error e : Except ε α) >>= f = .error e := rfl

/-- Pure on `Except`. -/
theorem except_pure {ε α : Type} (a : α) : (pure a : Except ε α) = .ok a := rfl

/-- An absent label raises the key error (spec: `ParseError`). -/
theorem getTimeField_absent (ts : List (String × Option String)) (l : String)
    (h : dictGet ts l = none) : getTimeField ts l = .error (.parseError l) := by
  unfold getTimeField
  rw [h]

/-- A present, valid value parses. -/
theorem getTimeField_ok_of_valid (ts : List (String × Option String)) (l r : String)
    (t : Time) (hd : dictGet ts l = some (some r)) (hf : time_fromisoformat r = some t) :
    getTimeField ts l = .ok t := by
  unfold getTimeField
  rw [hd]
  dsimp only
  rw [hf]

/-- A present but invalid value raises the value error (spec:
`TimeFormatError`). -/
theorem getTimeField_invalid (ts : List (String × Option String)) (l r : String)
    (hd : dictGet ts l = some (some r)) (hf : time_fromisoformat r = none) :
    getTimeField ts l = .error (.timeFormatError r) := by
  unfold getTimeField
  rw [hd]
  dsimp only
  rw [hf]

/-- Unpack `labelOk`. -/
theorem labelOk_exists (ts : List (String × Option String)) (l : String)
    (h : labelOk ts l = true) :
    ∃ r t, dictGet ts l = some (some r) ∧ time_fromisoformat r = some t := by
  unfold labelOk at h
  cases hd : dictGet ts l with
  | none => rw [hd] at h; simp at h
  | some ov =>
    rw [hd] at h
    cases ov with
    | none => simp at h
    | some r =>
      dsimp only at h
      cases hf : time_fromisoformat r with
      | none => rw [hf] at h; simp at h
      | some t => exact ⟨r, t, rfl, hf⟩

/-- A present label under the present-implies-valid premise is fully ok. -/
theorem labelOk_of_present (ts : List (String × Option String)) (l : String)
    (ov : Option String) (hd : dictGet ts l = some ov)
    (hv : labelPresentImpliesValid ts l = true) : labelOk ts l = true := by
  unfold labelPresentImpliesValid at hv
  unfold labelOk
  rw [hd] at hv ⊢
  cases ov with
  | none => simp at hv
  | some r => exact hv

/-- Unpack `labelPresentStr`. -/
theorem labelPresentStr_exists (ts : List (String × Option String)) (l : String)
    (h : labelPresentStr ts l = true) : ∃ r, dictGet ts l = some (some r) := by
  unfold labelPresentStr at h
  cases hd : dictGet ts l with
  | none => rw [hd] at h; simp at h
  | some ov =>
    rw [hd] at h
    cases ov with
    | none => simp at h
    | some r => exact ⟨r, rfl⟩

/-- A successful field lookup means the label was present. -/
theorem getTimeField_ok_present (ts : List (String × Option String)) (l : String)
    (t : Time) (h : getTimeField ts l = .ok t) : (dictGet ts l).isNone = false := by
  unfold getTimeField at h
  cases hd : dictGet ts l with
  | none => rw [hd] at h; cases h
  | some ov => simp

/-- With all six labels present and valid, assembly succeeds. -/
theorem assembleTimes_ok (ts : List (String × Option String))
    (h : sixLabels.all (labelOk ts) = true) : ∃ pt, assembleTimes ts = .ok pt := by
  simp only [sixLabels, List.all_cons, List.all_nil, Bool.and_eq_true, and_true] at h
  obtain ⟨h1, h2, h3, h4, h5, h6⟩ := h
  obtain ⟨r1, t1, hd1, hf1⟩ := labelOk_exists _ _ h1
  obtain ⟨r2, t2, hd2, hf2⟩ := labelOk_exists _ _ h2
  obtain ⟨r3, t3, hd3, hf3⟩ := labelOk_exists _ _ h3
  obtain ⟨r4, t4, hd4, hf4⟩ := labelOk_exists _ _ h4
  obtain ⟨r5, t5, hd5, hf5⟩ := labelOk_exists _ _ h5
  obtain ⟨r6, t6, hd6, hf6⟩ := labelOk_exists _ _ h6
  refine ⟨⟨t1, t2, t3, t4, t5, t6⟩, ?_⟩
  simp [assembleTimes, getTimeField_ok_of_valid _ _ _ _ hd1 hf1,
    getTimeField_ok_of_valid _ _ _ _ hd2 hf2, getTimeField_ok_of_valid _ _ _ _ hd3 hf3,
    getTimeField_ok_of_valid _ _ _ _ hd4 hf4, getTimeField_ok_of_valid _ _ _ _ hd5 hf5,
    getTimeField_ok_of_valid _ _ _ _ hd6 hf6, except_ok_bind, except_pure]

/-- With some label absent and every present value valid, assembly fails
with the key error of an absent label. -/
theorem assembleTimes_parseError (ts : List (String × Option String))
    (habs : sixLabels.any (fun l => (dictGet ts l).isNone) = true)
    (hval : sixLabels.all (labelPresentImpliesValid ts) = true) :
    ∃ l ∈ sixLabels, dictGet ts l = none ∧ assembleTimes ts = .error (.parseError l) := by
  simp only [sixLabels, List.all_cons, List.all_nil, Bool.and_eq_true, and_true] at hval
  obtain ⟨v1, v2, v3, v4, v5, v6⟩ := hval
  cases hd1 : dictGet ts "İmsak" with
  | none =>
    exact ⟨"İmsak", by simp [sixLabels], hd1, by
      simp [assembleTimes, getTimeField_absent _ _ hd1, except_error_bind]⟩
  | some ov1 =>
    obtain ⟨r1, t1, hD1, hf1⟩ := labelOk_exists _ _ (labelOk_of_present _ _ _ hd1 v1)
    have e1 := getTimeField_ok_of_valid _ _ _ _ hD1 hf1
    cases hd2 : dictGet ts "Güneş" with
    | none =>
      exact ⟨"Güneş", by simp [sixLabels], hd2, by
        simp [assembleTimes, e1, getTimeField_absent _ _ hd2, except_ok_bind,
          except_error_bind]⟩
    | some ov2 =>
      obtain ⟨r2, t2, hD2, hf2⟩ := labelOk_exists _ _ (labelOk_of_present _ _ _ hd2 v2)
      have e2 := getTimeField_ok_of_valid _ _ _ _ hD2 hf2
      cases hd3 : dictGet ts "Öğle" with
      | none =>
        exact ⟨"Öğle", by simp [sixLabels], hd3, by
          simp [assembleTimes, e1, e2, getTimeField_absent _ _ hd3, except_ok_bind,
            except_error_bind]⟩
      | some ov3 =>
        obtain ⟨r3, t3, hD3, hf3⟩ := labelOk_exists _ _ (labelOk_of_present _ _ _ hd3 v3)
        have e3 := getTimeField_ok_of_valid _ _ _ _ hD3 hf3
        cases hd4 : dictGet ts "İkindi" with
        | none =>
          exact ⟨"İkindi", by simp [sixLabels], hd4, by
            simp [assembleTimes, e1, e2, e3, getTimeField_absent _ _ hd4, except_ok_bind,
              except_error_bind]⟩
        | some ov4 =>
          obtain ⟨r4, t4, hD4, hf4⟩ := labelOk_exists _ _ (labelOk_of_present _ _ _ hd4 v4)
          have e4 := getTimeField_ok_of_valid _ _ _ _ hD4 hf4
          cases hd5 : dictGet ts "Akşam" with
          | none =>
            exact ⟨"Akşam", by simp [sixLabels], hd5, by
              simp [assembleTimes, e1, e2, e3, e4, getTimeField_absent _ _ hd5,
                except_ok_bind, except_error_bind]⟩
          | some ov5 =>
            obtain ⟨r5, t5, hD5, hf5⟩ :=
              labelOk_exists _ _ (labelOk_of_present _ _ _ hd5 v5)
            have e5 := getTimeField_ok_of_valid _ _ _ _ hD5 hf5
            cases hd6 : dictGet ts "Yatsı" with
            | none =>
              exact ⟨"Yatsı", by simp [sixLabels], hd6, by
                simp [assembleTimes, e1, e2, e3, e4, e5, getTimeField_absent _ _ hd6,
                  except_ok_bind, except_error_bind]⟩
            | some ov6 =>
              exfalso
              obtain ⟨l, hl, hiso⟩ := List.any_eq_true.mp habs
              simp only [sixLabels, List.mem_cons, List.not_mem_nil, or_false] at hl
              rcases hl with rfl | rfl | rfl | rfl | rfl | rfl <;>
                simp [hd1, hd2, hd3, hd4, hd5, hd6] at hiso

/-- With all six labels present as strings and some value invalid, assembly
fails with the value error of an invalid raw value. -/
theorem assembleTimes_timeFormatError (ts : List (String × Option String))
    (hstr : sixLabels.all (labelPresentStr ts) = true)
    (hinv : sixLabels.any (labelInvalid ts) = true) :
    ∃ raw, time_fromisoformat raw = none ∧
      assembleTimes ts = .error (.timeFormatError raw) := by
  simp only [sixLabels, List.all_cons, List.all_nil, Bool.and_eq_true, and_true] at hstr
  obtain ⟨s1, s2, s3, s4, s5, s6⟩ := hstr
  obtain ⟨r1, hd1⟩ := labelPresentStr_exists _ _ s1
  cases hf1 : time_fromisoformat r1 with
  | none =>
    exact ⟨r1, hf1, by
      simp [assembleTimes, getTimeField_invalid _ _ _ hd1 hf1, except_error_bind]⟩
  | some t1 =>
    have e1 := getTimeField_ok_of_valid _ _ _ _ hd1 hf1
    obtain ⟨r2, hd2⟩ := labelPresentStr_exists _ _ s2
    cases hf2 : time_fromisoformat r2 with
    | none =>
      exact ⟨r2, hf2, by
        simp [assembleTimes, e1, getTimeField_invalid _ _ _ hd2 hf2, except_ok_bind,
          except_error_bind]⟩
    | some t2 =>
      have e2 := getTimeField_ok_of_valid _ _ _ _ hd2 hf2
      obtain ⟨r3, hd3⟩ := labelPresentStr_exists _ _ s3
      cases hf3 : time_fromisoformat r3 with
      | none =>
        exact ⟨r3, hf3, by
          simp [assembleTimes, e1, e2, getTimeField_invalid _ _ _ hd3 hf3, except_ok_bind,
            except_error_bind]⟩
      | some t3 =>
        have e3 := getTimeField_ok_of_valid _ _ _ _ hd3 hf3
        obtain ⟨r4, hd4⟩ := labelPresentStr_exists _ _ s4
        cases hf4 : time_fromisoformat r4 with
        | none =>
          exact ⟨r4, hf4, by
            simp [assembleTimes, e1, e2, e3, getTimeField_invalid _ _ _ hd4 hf4,
              except_ok_bind, except_error_bind]⟩
        | some t4 =>
          have e4 := getTimeField_ok_of_valid _ _ _ _ hd4 hf4
          obtain ⟨r5, hd5⟩ := labelPresentStr_exists _ _ s5
          cases hf5 : time_fromisoformat r5 with
          | none =>
            exact ⟨r5, hf5, by
              simp [assembleTimes, e1, e2, e3, e4, getTimeField_invalid _ _ _ hd5 hf5,
                except_ok_bind, except_error_bind]⟩
          | some t5 =>
            have e5 := getTimeField_ok_of_valid _ _ _ _ hd5 hf5
            obtain ⟨r6, hd6⟩ := labelPresentStr_exists _ _ s6
            cases hf6 : time_fromisoformat r6 with
            | none =>
              exact ⟨r6, hf6, by
                simp [assembleTimes, e1, e2, e3, e4, e5,
                  getTimeField_invalid _ _ _ hd6 hf6, except_ok_bind, except_error_bind]⟩
            | some t6 =>
              exfalso
              obtain ⟨l, hl, hiso⟩ := List.any_eq_true.mp hinv
              simp only [sixLabels, List.mem_cons, List.not_mem_nil, or_false] at hl
              rcases hl with rfl | rfl | rfl | rfl | rfl | rfl <;>
                simp [labelInvalid, hd1, hd2, hd3, hd4, hd5, hd6, hf1, hf2, hf3, hf4,
                  hf5, hf6] at hiso

/-- A successful assembly implies all six labels were present. -/
theorem assembleTimes_ok_all_present (ts : List (String × Option String))
    (pt : PrayerTimes) (h : assembleTimes ts = .ok pt) :
    ∀ l ∈ sixLabels, (dictGet ts l).isNone = false := by
  unfold assembleTimes at h
  cases g1 : getTimeField ts "İmsak" with
  | error e => rw [g1] at h; simp [except_error_bind] at h
  | ok t1 =>
    rw [g1] at h
    simp only [except_ok_bind] at h
    cases g2 : getTimeField ts "Güneş" with
    | error e => rw [g2] at h; simp [except_error_bind] at h
    | ok t2 =>
      rw [g2] at h
      simp only [except_ok_bind] at h
      cases g3 : getTimeField ts "Öğle" with
      | error e => rw [g3] at h; simp [except_error_bind] at h
      | ok t3 =>
        rw [g3] at h
        simp only [except_ok_bind] at h
        cases g4 : getTimeField ts "İkindi" with
        | error e => rw [g4] at h; simp [except_error_bind] at h
        | ok t4 =>
          rw [g4] at h
          simp only [except_ok_bind] at h
          cases g5 : getTimeField ts "Akşam" with
          | error e => rw [g5] at h; simp [except_error_bind] at h
          | ok t5 =>
            rw [g5] at h
            simp only [except_ok_bind] at h
            cases g6 : getTimeField ts "Yatsı" with
            | error e => rw [g6] at h; simp [except_error_bind] at h
            | ok t6 =>
              intro l hl
              simp only [sixLabels, List.mem_cons, List.not_mem_nil, or_false] at hl
              rcases hl with rfl | rfl | rfl | rfl | rfl | rfl
              · exact getTimeField_ok_present _ _ _ g1
              · exact getTimeField_ok_present _ _ _ g2
              · exact getTimeField_ok_present _ _ _ g3
              · exact getTimeField_ok_present _ _ _ g4
              · exact getTimeField_ok_present _ _ _ g5
              · exact getTimeField_ok_present _ _ _ g6

/-- C5: `get_times` fetches the region's own `url`, runs the prayer-time
extractor, and then (1) succeeds with a fully assembled `PrayerTimes` when
every one of the six required labels is present with a valid time value;
(2) fails with the key error (`ParseError`) of an absent required label when
one is absent and every present value is valid; (3) fails with the value
error (`TimeFormatError`) of an invalid raw value when all labels are
present but some value is not a valid time-of-day string; and (4) never
returns a value when a required label is absent. -/
theorem C5_get_times_errors (net : String → String) (tok : String → List Event)
    (m : Mem) (region : Region) (p : PrayerTimeParser)
    (hrun : PrayerTimeParser.run PrayerTimeParser.init
      (tok (fetch net m region.url []).1) = .ok p) :
    (sixLabels.all (labelOk p.times) = true →
      ∃ pt, get_times net tok m region = .ok (pt, (fetch net m region.url []).2)) ∧
    (sixLabels.any (fun l => (dictGet p.times l).isNone) = true →
      sixLabels.all (labelPresentImpliesValid p.times) = true →
      ∃ l ∈ sixLabels, dictGet p.times l = none ∧
        get_times net tok m region = .error (.parseError l)) ∧
    (sixLabels.all (labelPresentStr p.times) = true →
      sixLabels.any (labelInvalid p.times) = true →
      ∃ raw, time_fromisoformat raw = none ∧
        get_times net tok m region = .error (.timeFormatError raw)) ∧
    (sixLabels.any (fun l => (dictGet p.times l).isNone) = true →
      ∀ pt m', get_times net tok m region ≠ .ok (pt, m')) := by
  have hgt : get_times net tok m region =
      (match assembleTimes p.times with
       | .error e => .error e
       | .ok pt => .ok (pt, (fetch net m region.url []).2)) := by
    simp only [get_times]
    rw [hrun]
  refine ⟨?_, ?_, ?_, ?_⟩
  · intro hall
    obtain ⟨pt, ha⟩ := assembleTimes_ok _ hall
    exact ⟨pt, by rw [hgt, ha]⟩
  · intro habs hval
    obtain ⟨l, hl, hdl, ha⟩ := assembleTimes_parseError _ habs hval
    exact ⟨l, hl, hdl, by rw [hgt, ha]⟩
  · intro hstr hinv
    obtain ⟨raw, hf, ha⟩ := assembleTimes_timeFormatError _ hstr hinv
    exact ⟨raw, hf, by rw [hgt, ha]⟩
  · intro habs pt m' hc
    rw [hgt] at hc
    cases ha : assembleTimes p.times with
    | error e => rw [ha] at hc; cases hc
    | ok pt2 =>
      obtain ⟨l, hl, hiso⟩ := List.any_eq_true.mp habs
      rw [assembleTimes_ok_all_present _ _ ha l hl] at hiso
      cases hiso

/-- Witness for C5 at the six-pair fixture page: all labels present and
valid, so a full `PrayerTimes` is assembled. -/
theorem C5_witness :
    PrayerTimeParser.run PrayerTimeParser.init
        (tok5 (fetch net5 memEmpty region0.url []).1) = .ok ps5 ∧
    sixLabels.all (labelOk ps5.times) = true ∧
    ∃ pt, get_times net5 tok5 memEmpty region0 =
      .ok (pt, (fetch net5 memEmpty region0.url []).2) :=
  ⟨by decide, by decide,
   (C5_get_times_errors net5 tok5 memEmpty region0 ps5 (by decide)).1 (by decide)⟩

end Diyanet

